import Mathlib

/-!
Shallow embedding of the MatEnsemble dispatch core (manager.py, fluxlet.py,
strategy/*.py) and proofs about the frozen claims.

Modelling conventions:
* Python `pathlib.Path` values are an absolute flag plus a component list.
* Python side effects (mkdir, executor submit, RPCs, status writes, sleeps,
  restart pickles) are recorded as an explicit event trace.
* Python exceptions are an explicit error type; every effectful operation
  returns `Except (PyError × trace) (result × trace)` so that the events
  emitted before an uncaught exception are kept.
* Machine integers are `Nat`/`Int`; task ids are `Nat` (the source treats them
  as opaque hashable values); `shlex.split(command)` and
  `normalize_task_args` outputs are taken as already-tokenized string lists,
  since no claim depends on tokenization itself.
-/

namespace MatEnsemble

/-- Python `pathlib.Path`: an absolute flag plus path components. -/
structure PyPath where
  isAbs : Bool
  comps : List String
deriving DecidableEq, Repr

/-- Pathlib `/` operator: joining with an absolute right operand resets the root. -/
def PyPath.join (root p : PyPath) : PyPath :=
  if p.isAbs then p else ⟨root.isAbs, root.comps ++ p.comps⟩

/-- Component normalization done by `Path.resolve()`: drop `.`, fold `..`. -/
def normComps (acc : List String) : List String → List String
  | [] => acc
  | c :: cs =>
    if c = "." then normComps acc cs
    else if c = ".." then normComps acc.dropLast cs
    else normComps (acc ++ [c]) cs

/-- Python `Path.resolve()` relative to the process working directory `cwd`:
make the path absolute, then normalize its components. -/
def PyPath.resolveIn (cwd p : PyPath) : PyPath :=
  let q := if p.isAbs then p else PyPath.join cwd p
  ⟨true, normComps [] q.comps⟩

/-- A path is canonical when it is absolute and normalization fixes it. -/
def PyPath.canonical (p : PyPath) : Prop :=
  p.isAbs = true ∧ normComps [] p.comps = p.comps

instance (p : PyPath) : Decidable p.canonical := by
  unfold PyPath.canonical; infer_instance

/-- The chain of a directory and all its ancestors, as created by
`mkdir(parents=True)`. -/
def dirChain (p : PyPath) : List PyPath :=
  (List.range (p.comps.length + 1)).map (fun k => ⟨p.isAbs, p.comps.take k⟩)

/-- Process environments and job environments (`os.environ`, `dict` copies). -/
abbrev Env := List (String × String)

/-- Python dict assignment `e[k] = v`: update in place or append. -/
def envSet (e : Env) (k v : String) : Env :=
  if (e.find? (fun kv => kv.1 = k)).isSome then
    e.map (fun kv => if kv.1 = k then (k, v) else kv)
  else e ++ [(k, v)]

/-- Resource request part of a Flux jobspec: `JobspecV1.from_command` or
`JobspecV1.per_resource` (fluxlet.py lines 158-163 and 221-228). -/
inductive ResSpec where
  | fromCommand (num_tasks cores_per_task gpus_per_task : Nat)
  | perResource (ncores nnodes gpus_per_node : Nat)
deriving DecidableEq, Repr

/-- The jobspec fields produced by `Fluxlet.job_submit` / `hetero_job_submit`. -/
structure JobSpec where
  cmd : List String
  res : ResSpec
  cwd : PyPath
  shell_mpi : Option String
  shell_cpu_affinity : Option String
  shell_gpu_affinity : Option String
  environment : Env
  stdout : PyPath
  stderr : PyPath
deriving DecidableEq, Repr

/-- The eventual result a future will deliver when reaped:
`finished rc` means `fut.result()` returns `rc`; `raised` means the wrapper
raised a (non-cancellation) exception; `cancelled` means reaping raises
`concurrent.futures.CancelledError`. -/
inductive Outcome where
  | finished (rc : Int)
  | raised
  | cancelled
deriving DecidableEq, Repr

/-- A submitted future together with the annotations the source attaches
to it post-creation (fluxlet.py lines 183-188). -/
structure Future where
  task : Nat
  job_spec : JobSpec
  workdir : PyPath
  outcome : Outcome
deriving DecidableEq, Repr

/-- Which executor a submission went through: the manager-owned scoped
executor, or a `flux.job.FluxExecutor()` freshly constructed at the call. -/
inductive ExecutorRef where
  | managed
  | freshLocal
deriving DecidableEq, Repr

/-- Observable side effects of the dispatch core. -/
inductive Event where
  | mkdirParents (p : PyPath)
  | submitJob (ex : ExecutorRef) (fut : Future)
  | chdir (p : PyPath)
  | setProcEnv (k v : String)
  | rpc (topic target : String)
  | probe
  | statusUpdate (pending running completed failed : Nat)
  | restartWrite (filename : String)
  | sleep
deriving DecidableEq, Repr

/-- Python exceptions the embedded code can raise. -/
inductive PyError where
  | typeError
  | indexError
  | keyError
  | attributeError
  | valueError
  | zeroDivision
deriving DecidableEq, Repr

/-- Result of an effectful operation: the events emitted are kept both on
normal return and when an uncaught exception escapes. -/
abbrev PRes (σ : Type) := Except (PyError × List Event) (σ × List Event)

/-- Prepend already-emitted events to a result. -/
def PRes.withPre {σ : Type} (evs : List Event) : PRes σ → PRes σ
  | .error (e, tr) => .error (e, evs ++ tr)
  | .ok (a, tr) => .ok (a, evs ++ tr)

/-- The events of a result, error or not. -/
def traceOf {σ : Type} : PRes σ → List Event
  | .error (_, tr) => tr
  | .ok (_, tr) => tr

/-- Tasks submitted in a trace, in submission order. -/
def submittedTasks (evs : List Event) : List Nat :=
  evs.filterMap (fun e => match e with | .submitJob _ f => some f.task | _ => none)

/-- Whether an event is an executor submission. -/
def eventIsSubmit : Event → Bool
  | .submitJob _ _ => true
  | _ => false

/-- Whether an event is a resource-manager RPC (drain/undrain class; the
status/list queries of `check_resources` are recorded as `probe`). -/
def eventIsRpc : Event → Bool
  | .rpc _ _ => true
  | _ => false

/-- Whether an event changes the process working directory. -/
def eventIsChdir : Event → Bool
  | .chdir _ => true
  | _ => false

/-- Whether an event writes a restart snapshot. -/
def eventIsRestartWrite : Event → Bool
  | .restartWrite _ => true
  | _ => false

/-- Filesystem semantics of one event: `mkdir(parents=True, exist_ok=True)`
creates the directory and all ancestors (resolved against the process cwd). -/
def applyEvent (cwd : PyPath) (fs : List PyPath) (e : Event) : List PyPath :=
  match e with
  | .mkdirParents p => fs ++ dirChain (PyPath.resolveIn cwd p)
  | _ => fs

/-- Directories existing after a list of events. -/
def fsAfter (cwd : PyPath) (fs : List PyPath) (evs : List Event) : List PyPath :=
  List.foldl (applyEvent cwd) fs evs

/-- Process environment after a list of events: only `setProcEnv` mutates it. -/
def procEnvAfter (e0 : Env) (evs : List Event) : Env :=
  List.foldl
    (fun acc ev => match ev with | Event.setProcEnv k v => envSet acc k v | _ => acc)
    e0 evs

/-- Flux resource drain set semantics: `resource.drain` adds the target,
`resource.undrain` removes it (the freshly drained target goes offline). -/
def applyRpc (drained : List String) (topic target : String) : List String :=
  if topic = "resource.drain" then
    if target ∈ drained then drained else drained ++ [target]
  else if topic = "resource.undrain" then drained.erase target
  else drained

/-- Drain set reached after the RPC events of a trace. -/
def rpcEffects (drained : List String) (evs : List Event) : List String :=
  List.foldl
    (fun d ev => match ev with | Event.rpc topic target => applyRpc d topic target | _ => d)
    drained evs

/-- A node is available (can receive work) when it is not drained. -/
def nodeAvailable (drained : List String) (node : String) : Bool :=
  decide (node ∉ drained)

/-! ## Fluxlet (fluxlet.py) -/

/-- Constructor state of a `Fluxlet` (fluxlet.py lines 84-106); the flux
handle does not influence jobspec construction and is omitted. -/
structure Fluxlet where
  tasks_per_job : Nat
  cores_per_task : Nat
  gpus_per_task : Nat
deriving DecidableEq, Repr

/-- Working-directory resolution of `resolve_workdir` (fluxlet.py lines
31-54): returns the resolved absolute path and the `mkdir` effect, which is
performed on the path before `resolve()` is applied. -/
def resolve_workdir (task : Nat) (task_directory base_out_dir launch_dir : Option PyPath)
    (osCwd : PyPath) : PyPath × List Event :=
  let ld := launch_dir.getD osCwd
  let p :=
    match task_directory with
    | some td => if td.isAbs then td else PyPath.join (base_out_dir.getD ld) td
    | none => PyPath.join (base_out_dir.getD ld) ⟨false, [toString task]⟩
  (PyPath.resolveIn osCwd p, [Event.mkdirParents p])

/-- Homogeneous submission `Fluxlet.job_submit` (fluxlet.py lines 108-190).
`cmd_tokens` stands for `shlex.split(command)` and `task_args` for
`normalize_task_args(task_args)`; `outcome` is the eventual external result
used to annotate the returned future. -/
def Fluxlet.job_submit (fl : Fluxlet) (executor : ExecutorRef) (cmd_tokens : List String)
    (task : Nat) (task_args : List String) (task_directory base_out_dir : Option PyPath)
    (set_gpu_affinity set_cpu_affinity : Bool) (set_mpi : Option Bool) (env : Option Env)
    (osEnviron : Env) (osCwd : PyPath) (outcome : Outcome) : Future × List Event :=
  let wd := resolve_workdir task task_directory base_out_dir (some osCwd) osCwd
  let workdir := wd.1
  let cmd_list := cmd_tokens ++ task_args
  let job_env := match env with | none => osEnviron | some e => e
  let jobspec : JobSpec :=
    { cmd := cmd_list
      res := ResSpec.fromCommand fl.tasks_per_job fl.cores_per_task fl.gpus_per_task
      cwd := workdir
      shell_mpi := if set_mpi.isSome then some "pmi2" else none
      shell_cpu_affinity := if set_cpu_affinity then some "per-task" else none
      shell_gpu_affinity :=
        if set_gpu_affinity ∧ fl.gpus_per_task > 0 then some "per-task" else none
      environment := job_env
      stdout := PyPath.join workdir ⟨false, ["stdout"]⟩
      stderr := PyPath.join workdir ⟨false, ["stderr"]⟩ }
  let fut : Future :=
    { task := task, job_spec := jobspec, workdir := workdir, outcome := outcome }
  (fut, wd.2 ++ [Event.submitJob executor fut])

/-- Heterogeneous submission `Fluxlet.hetero_job_submit` (fluxlet.py lines
192-256): per-resource jobspec, and `SLURM_GPUS_PER_NODE` set on the job
environment copy. -/
def Fluxlet.hetero_job_submit (fl : Fluxlet) (executor : ExecutorRef)
    (nnodes gpus_per_node : Nat) (cmd_tokens : List String) (task : Nat)
    (task_args : List String) (task_directory base_out_dir : Option PyPath)
    (set_gpu_affinity set_cpu_affinity : Bool) (set_mpi : Option Bool) (env : Option Env)
    (osEnviron : Env) (osCwd : PyPath) (outcome : Outcome) : Future × List Event :=
  let wd := resolve_workdir task task_directory base_out_dir (some osCwd) osCwd
  let workdir := wd.1
  let cmd_list := cmd_tokens ++ task_args
  let job_env0 := match env with | none => osEnviron | some e => e
  let job_env := envSet job_env0 "SLURM_GPUS_PER_NODE" (toString gpus_per_node)
  let jobspec : JobSpec :=
    { cmd := cmd_list
      res := ResSpec.perResource fl.tasks_per_job nnodes gpus_per_node
      cwd := workdir
      shell_mpi := if set_mpi.isSome then some "pmi2" else none
      shell_cpu_affinity := if set_cpu_affinity then some "per-task" else none
      shell_gpu_affinity :=
        if set_gpu_affinity ∧ fl.gpus_per_task > 0 then some "per-task" else none
      environment := job_env
      stdout := PyPath.join workdir ⟨false, ["stdout"]⟩
      stderr := PyPath.join workdir ⟨false, ["stderr"]⟩ }
  let fut : Future :=
    { task := task, job_spec := jobspec, workdir := workdir, outcome := outcome }
  (fut, wd.2 ++ [Event.submitJob executor fut])

/-! ## Restart snapshot and manager state (manager.py) -/

/-- A value inside the pickled restart record; the tag mirrors the Python
runtime type of each bucket. -/
inductive PickleVal where
  | idList (xs : List Nat)
  | idSet (xs : List Nat)
  | idDeque (xs : List Nat)
  | pairList (xs : List (Nat × JobSpec))
deriving DecidableEq, Repr

/-- A pickled keyed record (the `task_log` dict). -/
abbrev PickleDict := List (String × PickleVal)

/-- The pickle files in the launch directory, keyed by filename. -/
abbrev FileSys := List (String × PickleDict)

/-- Write (or overwrite) a pickle file. -/
def writeFile (fs : FileSys) (name : String) (d : PickleDict) : FileSys :=
  if (fs.find? (fun f => f.1 = name)).isSome then
    fs.map (fun f => if f.1 = name then (name, d) else f)
  else fs ++ [(name, d)]

/-- Python dict key lookup; a missing key raises `KeyError`. -/
def dictLookup (d : PickleDict) (k : String) : Except PyError PickleVal :=
  match d.find? (fun kv => kv.1 = k) with
  | some kv => .ok kv.2
  | none => .error .keyError

/-- State of a `SuperFluxManager` (manager.py lines 105-174). The buckets
keep their source names; `running_tasks` is a Python `set`, modelled as a
duplicate-free insertion-ordered list; `fs` is the launch-directory pickle
store threaded through the embedding; `probeCount` indexes the external
resource probe stream. -/
structure Mgr where
  pending_tasks : List Nat
  running_tasks : List Nat
  completed_tasks : List Nat
  failed_tasks : List (Nat × JobSpec)
  futures : List Future
  tasks_per_job : List Nat
  cores_per_task : Nat
  gpus_per_task : Nat
  nnodes : Option Nat
  gpus_per_node : Option Nat
  gen_task_cmd : List String
  write_restart_freq : Nat
  out_dir : PyPath
  free_cores : Nat
  free_gpus : Nat
  fs : FileSys
  probeCount : Nat
deriving DecidableEq, Repr

/-- Python `set.add`: inserts only when absent. -/
def setAdd (xs : List Nat) (x : Nat) : List Nat :=
  if x ∈ xs then xs else xs ++ [x]

/-- The keyed restart record written by `create_restart_file`
(manager.py lines 214-219). -/
def restartDict (m : Mgr) : PickleDict :=
  [("Completed tasks", PickleVal.idList m.completed_tasks),
   ("Running tasks", PickleVal.idSet m.running_tasks),
   ("Pending tasks", PickleVal.idDeque m.pending_tasks),
   ("Failed tasks", PickleVal.pairList m.failed_tasks)]

/-- The target filename `restart_<len(completed_tasks)>.dat`. -/
def restartFileName (m : Mgr) : String :=
  "restart_" ++ toString m.completed_tasks.length ++ ".dat"

/-- `SuperFluxManager.create_restart_file` (manager.py lines 205-223). -/
def create_restart_file (m : Mgr) : Mgr × List Event :=
  ({ m with fs := writeFile m.fs (restartFileName m) (restartDict m) },
   [Event.restartWrite (restartFileName m)])

/-- `SuperFluxManager.load_restart` (manager.py lines 176-203): nothing
happens unless `filename` is given and names an existing file; the four
assignments run in source order, a missing key raising `KeyError` which is
logged and re-raised; a value whose runtime type does not match the bucket
it is assigned to is modelled as a `TypeError` load failure. -/
def load_restart (filename : Option String) (m : Mgr) : Except PyError Mgr :=
  match filename with
  | none => .ok m
  | some name =>
    match m.fs.find? (fun f => f.1 = name) with
    | none => .ok m
    | some file =>
      match dictLookup file.2 "Completed tasks" with
      | .error e => .error e
      | .ok v1 =>
        match v1 with
        | .idList c =>
          match dictLookup file.2 "Running tasks" with
          | .error e => .error e
          | .ok v2 =>
            match v2 with
            | .idSet r =>
              match dictLookup file.2 "Pending tasks" with
              | .error e => .error e
              | .ok v3 =>
                match v3 with
                | .idDeque p =>
                  match dictLookup file.2 "Failed tasks" with
                  | .error e => .error e
                  | .ok v4 =>
                    match v4 with
                    | .pairList f =>
                      .ok { m with completed_tasks := c, running_tasks := r,
                                   pending_tasks := p, failed_tasks := f }
                    | _ => .error .typeError
                | _ => .error .typeError
            | _ => .error .typeError
        | _ => .error .typeError

/-- The `tasks_per_job` constructor argument (None, a `numbers.Real`, or a
list; anything else raises `TypeError`). -/
inductive TPJArg where
  | noneArg
  | realArg (v : Nat)
  | listArg (xs : List Nat)
  | otherArg
deriving DecidableEq, Repr

/-- `SuperFluxManager.__init__` (manager.py lines 105-174): fresh buckets
from `gen_task_list`, `tasks_per_job` normalization, then `load_restart`.
`out_dir` stands for `paths.out_dir` produced by `setup_workflow_logging`;
`free_cores`/`free_gpus` are unset until the first probe (modelled 0). -/
def mgrInit (gen_task_list : List Nat) (gen_task_cmd : List String)
    (write_restart_freq : Nat) (tasks_per_job : TPJArg)
    (cores_per_task gpus_per_task : Nat) (nnodes gpus_per_node : Option Nat)
    (restart_filename : Option String) (out_dir : PyPath) (fs : FileSys) :
    Except PyError Mgr :=
  let base : List Nat → Mgr := fun tpj =>
    { pending_tasks := gen_task_list
      running_tasks := []
      completed_tasks := []
      failed_tasks := []
      futures := []
      tasks_per_job := tpj
      cores_per_task := cores_per_task
      gpus_per_task := gpus_per_task
      nnodes := nnodes
      gpus_per_node := gpus_per_node
      gen_task_cmd := gen_task_cmd
      write_restart_freq := write_restart_freq
      out_dir := out_dir
      free_cores := 0
      free_gpus := 0
      fs := fs
      probeCount := 0 }
  match tasks_per_job with
  | .noneArg =>
    load_restart restart_filename (base (List.replicate gen_task_list.length 1))
  | .realArg v =>
    load_restart restart_filename (base (List.replicate gen_task_list.length v))
  | .listArg xs => load_restart restart_filename (base xs)
  | .otherArg => .error .typeError

/-- External world supplying the inputs the core reads: the process
environment, the launch directory, the resource probe stream, and which
outcome each submitted task eventually delivers. -/
structure WEnv where
  osEnviron : Env
  osCwd : PyPath
  probes : Nat → Nat × Nat
  outcomeOf : Nat → Outcome

/-- `SuperFluxManager.check_resources` (manager.py lines 225-241): refresh
`free_cores`/`free_gpus` from the next point of the external probe stream. -/
def check_resources (w : WEnv) (m : Mgr) : Mgr × List Event :=
  ({ m with free_cores := (w.probes m.probeCount).1,
            free_gpus := (w.probes m.probeCount).2,
            probeCount := m.probeCount + 1 },
   [Event.probe])

/-- `SuperFluxManager.log_progress` (manager.py lines 243-270): status-file
and logger snapshot of the four bucket sizes. -/
def log_progress (m : Mgr) : List Event :=
  [Event.statusUpdate m.pending_tasks.length m.running_tasks.length
     m.completed_tasks.length m.failed_tasks.length]

/-! ## Submission strategies (strategy/cpu_affine_strategy.py,
strategy/dynopro_strategy.py, and the GPU-affine variant) -/

/-- Pop the head of the optional `task_dir_list` deque; popping an empty
deque raises `IndexError`. -/
def popDirs (dirs : Option (List PyPath)) :
    Except PyError (Option PyPath × Option (List PyPath)) :=
  match dirs with
  | none => .ok (none, none)
  | some [] => .error .indexError
  | some (d :: ds) => .ok (some d, some ds)

/-- `CPUAffineStrategy.submit` (cpu_affine_strategy.py lines 78-117): a
fresh `Fluxlet` over the manager resource numbers, submitted through the
manager-owned executor with `base_out_dir = paths.out_dir`. -/
def cpuAffineSubmit (w : WEnv) (m : Mgr) (task tpj : Nat)
    (task_args : List String) (task_dir : Option PyPath) : Future × List Event :=
  let fl : Fluxlet :=
    { tasks_per_job := tpj, cores_per_task := m.cores_per_task,
      gpus_per_task := m.gpus_per_task }
  fl.job_submit ExecutorRef.managed m.gen_task_cmd task task_args task_dir
    (some m.out_dir) false true none none w.osEnviron w.osCwd (w.outcomeOf task)

/-- While-loop body of `CPUAffineStrategy.submit_until_ooresources`
(cpu_affine_strategy.py lines 50-76), recursing on a structural fuel that
the wrapper sets to `|pending_tasks|`: each iteration of the source loop
pops the pending head, so the loop runs at most that many times. While the
`tasks_per_job` deque and the pending deque are non-empty and
`free_cores >= tasks_per_job[0] * cores_per_task`, pop the head of each
aligned deque, submit it, add the future and the running id, decrement the
local `free_cores` mirror, and sleep. -/
def submitCpuGo (w : WEnv) : Nat → List (List String) → Option (List PyPath) →
    Mgr → PRes (Mgr × List (List String) × Option (List PyPath))
  | 0, args, dirs, m => .ok ((m, args, dirs), [])
  | Nat.succ fuel, args, dirs, m =>
    match m.pending_tasks with
    | [] => .ok ((m, args, dirs), [])
    | t :: ps =>
      match m.tasks_per_job with
      | [] => .ok ((m, args, dirs), [])
      | tpj :: tpjs =>
        if m.free_cores < tpj * m.cores_per_task then .ok ((m, args, dirs), [])
        else
          match args with
          | [] => .error (.indexError, [])
          | a :: as1 =>
            match popDirs dirs with
            | .error e => .error (e, [])
            | .ok (d, dirs1) =>
              let sub := cpuAffineSubmit w m t tpj a d
              let m1 : Mgr :=
                { m with pending_tasks := ps,
                         futures := m.futures ++ [sub.1],
                         running_tasks := setAdd m.running_tasks t,
                         tasks_per_job := tpjs,
                         free_cores := m.free_cores - tpj * m.cores_per_task }
              PRes.withPre (sub.2 ++ [Event.sleep]) (submitCpuGo w fuel as1 dirs1 m1)

/-- `CPUAffineStrategy.submit_until_ooresources` (cpu_affine_strategy.py
lines 29-76). -/
def submit_until_oor_cpu (w : WEnv) (args : List (List String))
    (dirs : Option (List PyPath)) (m : Mgr) :
    PRes (Mgr × List (List String) × Option (List PyPath)) :=
  submitCpuGo w m.pending_tasks.length args dirs m

/-- Modelled from the spec: the GPU-affine submission of one task — the
same construction path as the CPU-affine strategy, with GPU affinity
requested. The file `strategy/gpu_affine_strategy.py` is imported by
manager.py but is not under src. -/
def gpuAffineSubmit (w : WEnv) (m : Mgr) (task tpj : Nat)
    (task_args : List String) (task_dir : Option PyPath) : Future × List Event :=
  let fl : Fluxlet :=
    { tasks_per_job := tpj, cores_per_task := m.cores_per_task,
      gpus_per_task := m.gpus_per_task }
  fl.job_submit ExecutorRef.managed m.gen_task_cmd task task_args task_dir
    (some m.out_dir) true true none none w.osEnviron w.osCwd (w.outcomeOf task)

/-- Modelled from the spec: `GPUAffineStrategy.submit_until_ooresources`
admission loop; per spec section 4.2 it shares the CPU-affine loop with
predicate `free_cores >= tpj[0]*cores_per_task` AND
`free_gpus >= tpj[0]*gpus_per_task` and decrements both local mirrors. -/
def submitGpuGo (w : WEnv) : Nat → List (List String) → Option (List PyPath) →
    Mgr → PRes (Mgr × List (List String) × Option (List PyPath))
  | 0, args, dirs, m => .ok ((m, args, dirs), [])
  | Nat.succ fuel, args, dirs, m =>
    match m.pending_tasks with
    | [] => .ok ((m, args, dirs), [])
    | t :: ps =>
      match m.tasks_per_job with
      | [] => .ok ((m, args, dirs), [])
      | tpj :: tpjs =>
        if m.free_cores < tpj * m.cores_per_task ∨ m.free_gpus < tpj * m.gpus_per_task then
          .ok ((m, args, dirs), [])
        else
          match args with
          | [] => .error (.indexError, [])
          | a :: as1 =>
            match popDirs dirs with
            | .error e => .error (e, [])
            | .ok (d, dirs1) =>
              let sub := gpuAffineSubmit w m t tpj a d
              let m1 : Mgr :=
                { m with pending_tasks := ps,
                         futures := m.futures ++ [sub.1],
                         running_tasks := setAdd m.running_tasks t,
                         tasks_per_job := tpjs,
                         free_cores := m.free_cores - tpj * m.cores_per_task,
                         free_gpus := m.free_gpus - tpj * m.gpus_per_task }
              PRes.withPre (sub.2 ++ [Event.sleep]) (submitGpuGo w fuel as1 dirs1 m1)

/-- Modelled from the spec: wrapper for the GPU-affine admission loop. -/
def submit_until_oor_gpu (w : WEnv) (args : List (List String))
    (dirs : Option (List PyPath)) (m : Mgr) :
    PRes (Mgr × List (List String) × Option (List PyPath)) :=
  submitGpuGo w m.pending_tasks.length args dirs m

/-- `DynoproStrategy.submit` (dynopro_strategy.py lines 61-84): raises
`ValueError` when `nnodes` or `gpus_per_node` is unset, else submits a
heterogeneous jobspec through the manager-owned executor (no
`base_out_dir` is passed). -/
def dynoproSubmit (w : WEnv) (m : Mgr) (task tpj : Nat)
    (task_args : List String) (task_dir : Option PyPath) :
    Except PyError (Future × List Event) :=
  match m.nnodes, m.gpus_per_node with
  | some nn, some gpn =>
    let fl : Fluxlet :=
      { tasks_per_job := tpj, cores_per_task := m.cores_per_task,
        gpus_per_task := m.gpus_per_task }
    .ok (fl.hetero_job_submit ExecutorRef.managed nn gpn m.gen_task_cmd task
      task_args task_dir none false true none none w.osEnviron w.osCwd
      (w.outcomeOf task))
  | _, _ => .error .valueError

/-- `DynoproStrategy.submit_until_ooresources` (dynopro_strategy.py lines
19-59): same head-gated FIFO loop; `free_cores` is refreshed by
`check_resources` before and after each submission instead of being
decremented locally, and `tasks_per_job` is popped after the submission. -/
def submitDynoproGo (w : WEnv) : Nat → List (List String) → Option (List PyPath) →
    Mgr → PRes (Mgr × List (List String) × Option (List PyPath))
  | 0, args, dirs, m => .ok ((m, args, dirs), [])
  | Nat.succ fuel, args, dirs, m =>
    match m.pending_tasks with
    | [] => .ok ((m, args, dirs), [])
    | t :: ps =>
      match m.tasks_per_job with
      | [] => .ok ((m, args, dirs), [])
      | tpj :: tpjs =>
        if m.free_cores < tpj * m.cores_per_task then .ok ((m, args, dirs), [])
        else
          let ca := check_resources w m
          let evLogA := log_progress ca.1
          match args with
          | [] => .error (.indexError, ca.2 ++ evLogA)
          | a :: as1 =>
            match popDirs dirs with
            | .error e => .error (e, ca.2 ++ evLogA)
            | .ok (d, dirs1) =>
              match dynoproSubmit w ca.1 t tpj a d with
              | .error e => .error (e, ca.2 ++ evLogA)
              | .ok sub =>
                let m1 : Mgr :=
                  { ca.1 with pending_tasks := ps,
                              futures := ca.1.futures ++ [sub.1],
                              running_tasks := setAdd ca.1.running_tasks t }
                let cb := check_resources w m1
                let evLogB := log_progress cb.1
                let m2 : Mgr := { cb.1 with tasks_per_job := tpjs }
                PRes.withPre
                  (ca.2 ++ evLogA ++ sub.2 ++ cb.2 ++ evLogB ++ [Event.sleep])
                  (submitDynoproGo w fuel as1 dirs1 m2)

/-- `DynoproStrategy.submit_until_ooresources` (dynopro_strategy.py lines
19-59). -/
def submit_until_oor_dynopro (w : WEnv) (args : List (List String))
    (dirs : Option (List PyPath)) (m : Mgr) :
    PRes (Mgr × List (List String) × Option (List PyPath)) :=
  submitDynoproGo w m.pending_tasks.length args dirs m

/-! ## Future-processing strategies (strategy/adaptive_strategy.py,
strategy/not_adaptive_strategy.py) -/

/-- Append `(task, job_spec)` to `failed_tasks`. -/
def failAppend (m : Mgr) (task : Nat) (js : JobSpec) : Mgr :=
  { m with failed_tasks := m.failed_tasks ++ [(task, js)] }

/-- State threaded through the adaptive strategy: the manager plus the
`task_arg_list` and `task_dir_list` references the strategy holds
(adaptive_strategy.py lines 13-16). -/
abbrev AState := Mgr × Option (List (List String)) × Option (List PyPath)

/-- `AdaptiveStrategy.submit` (adaptive_strategy.py lines 18-35): unlike the
submission strategies, it submits through a freshly constructed
`flux.job.FluxExecutor()` and passes no `base_out_dir`. -/
def adaptiveStrategySubmit (w : WEnv) (m : Mgr) (task tpj : Nat)
    (task_args : List String) (task_dir : Option PyPath) : Future × List Event :=
  let fl : Fluxlet :=
    { tasks_per_job := tpj, cores_per_task := m.cores_per_task,
      gpus_per_task := m.gpus_per_task }
  fl.job_submit ExecutorRef.freshLocal m.gen_task_cmd task task_args task_dir
    none false true none none w.osEnviron w.osCwd (w.outcomeOf task)

/-- `AdaptiveStrategy.adaptive_submit` (adaptive_strategy.py lines 37-68).
Control flow follows the source exactly:
* `if self.manager.tasks_per_job:` is True for any non-empty deque, so
  `tasks_per_job` is then hard-coded to `1` (the deque head is not read and
  the deque is not popped);
* for an empty deque the `elif isinstance(…, numbers.Number)` arm is False,
  and the `else` arm pops the empty deque, raising `IndexError`;
* when the gate passes, after `check_resources`/`log_progress` and the pops,
  `self.manager.running_tasks.append(cur_task)` is attempted on a Python
  `set`, raising `AttributeError` right after the executor submission. -/
def adaptive_submit (w : WEnv) (st : AState) : PRes AState :=
  let (m, aL, dL) := st
  match m.tasks_per_job with
  | [] => .error (.indexError, [])
  | _ :: _ =>
    let tpj := 1
    match aL with
    | none => .ok ((m, aL, dL), [])
    | some as0 =>
      if m.free_cores < tpj * m.cores_per_task then .ok ((m, aL, dL), [])
      else
        match m.pending_tasks with
        | [] => .ok ((m, aL, dL), [])
        | t :: ps =>
          let ca := check_resources w m
          let evLog := log_progress ca.1
          match as0 with
          | [] => .error (.indexError, ca.2 ++ evLog)
          | a :: as1 =>
            match popDirs dL with
            | .error e => .error (e, ca.2 ++ evLog)
            | .ok (d, dL1) =>
              let mA := { ca.1 with pending_tasks := ps }
              let sub := adaptiveStrategySubmit w mA t tpj a d
              let _mB := { mA with futures := mA.futures ++ [sub.1] }
              let _ := as1
              let _ := dL1
              .error (.attributeError, ca.2 ++ evLog ++ sub.2)

/-- One reap of `AdaptiveStrategy.process_futures` (adaptive_strategy.py
lines 74-100). A wrapper exception or nonzero exit appends to
`failed_tasks` and `continue`s — without removing the task from
`running_tasks` and without reaching `adaptive_submit`; only a successful
task is appended to `completed_tasks` and removed from `running_tasks`
(`set.remove` raising `KeyError` when absent); a cancelled future is only
printed, then `adaptive_submit` runs. No restart snapshot is taken. -/
def adaptiveReapOne (w : WEnv) (fut : Future) (st : AState) : PRes AState :=
  let (m, aL, dL) := st
  match fut.outcome with
  | .raised => .ok ((failAppend m fut.task fut.job_spec, aL, dL), [])
  | .finished rc =>
    if rc ≠ 0 then .ok ((failAppend m fut.task fut.job_spec, aL, dL), [])
    else
      let m1 := { m with completed_tasks := m.completed_tasks ++ [fut.task] }
      if fut.task ∈ m1.running_tasks then
        adaptive_submit w
          ({ m1 with running_tasks := m1.running_tasks.erase fut.task }, aL, dL)
      else .error (.keyError, [])
  | .cancelled => adaptive_submit w (m, aL, dL)

/-- Fold of the adaptive reap over the completed futures. -/
def adaptiveReapAll (w : WEnv) : List Future → AState → PRes AState
  | [], st => .ok (st, [])
  | f :: fs, st =>
    match adaptiveReapOne w f st with
    | .error et => .error et
    | .ok (st1, tr1) => PRes.withPre tr1 (adaptiveReapAll w fs st1)

/-- The bounded wait `concurrent.futures.wait(futures, timeout)` that opens
both `process_futures` variants: the in-flight set splits into the futures
done this cycle (`reapNow` lists their task ids; iteration order is the
futures insertion order) and the remainder. -/
def futuresWait (m : Mgr) (reapNow : List Nat) : List Future × Mgr :=
  (m.futures.filter (fun f => decide (f.task ∈ reapNow)),
   { m with futures := m.futures.filter (fun f => decide (f.task ∉ reapNow)) })

/-- `AdaptiveStrategy.process_futures` (adaptive_strategy.py lines 70-100). -/
def adaptive_process_futures (w : WEnv) (reapNow : List Nat) (st : AState) :
    PRes AState :=
  let (m, aL, dL) := st
  let wres := futuresWait m reapNow
  adaptiveReapAll w wres.1 (wres.2, aL, dL)

/-- One reap of `NonAdaptiveStrategy.process_futures`
(not_adaptive_strategy.py lines 42-80): the task id is removed from
`running_tasks` first (`set.remove`, `KeyError` when absent); a wrapper
exception — including `CancelledError`, which `except Exception` catches on
`fut.result()` — or a nonzero exit appends to `failed_tasks`; a success
appends to `completed_tasks` and, when
`len(completed_tasks) % write_restart_freq == 0`, writes a restart file
(`% 0` would raise `ZeroDivisionError`). -/
def nonAdaptiveReapOne (fut : Future) (m : Mgr) : PRes Mgr :=
  if fut.task ∈ m.running_tasks then
    let m1 := { m with running_tasks := m.running_tasks.erase fut.task }
    match fut.outcome with
    | .raised => .ok (failAppend m1 fut.task fut.job_spec, [])
    | .cancelled => .ok (failAppend m1 fut.task fut.job_spec, [])
    | .finished rc =>
      if rc ≠ 0 then .ok (failAppend m1 fut.task fut.job_spec, [])
      else
        let m2 := { m1 with completed_tasks := m1.completed_tasks ++ [fut.task] }
        if m2.write_restart_freq = 0 then .error (.zeroDivision, [])
        else if m2.completed_tasks.length % m2.write_restart_freq = 0 then
          let cr := create_restart_file m2
          .ok (cr.1, cr.2)
        else .ok (m2, [])
  else .error (.keyError, [])

/-- Fold of the non-adaptive reap over the completed futures. -/
def nonAdaptiveReapAll : List Future → Mgr → PRes Mgr
  | [], m => .ok (m, [])
  | f :: fs, m =>
    match nonAdaptiveReapOne f m with
    | .error et => .error et
    | .ok (m1, tr1) => PRes.withPre tr1 (nonAdaptiveReapAll fs m1)

/-- `NonAdaptiveStrategy.process_futures` (not_adaptive_strategy.py lines
27-80). -/
def non_adaptive_process_futures (reapNow : List Nat) (m : Mgr) : PRes Mgr :=
  let wres := futuresWait m reapNow
  nonAdaptiveReapAll wres.1 wres.2

/-! ## Dispatch loop (manager.py, `SuperFluxManager.poolexecutor`) -/

/-- One iteration body plus the `while not done` recursion of
`poolexecutor` (manager.py lines 367-377), fuel-bounded since the source
loop need not terminate. Strategy selection (manager.py lines 339-356)
resolves from the `dynopro` flag, `gpus_per_task`, and the `adaptive` flag;
`sched` lists, per iteration, the task ids whose futures complete within
that iteration's bounded wait. -/
def poolexecutor_loop (w : WEnv) (adaptive dynopro : Bool) (fuel : Nat)
    (sched : List (List Nat)) (args : List (List String))
    (dirs : Option (List PyPath)) (m : Mgr) : PRes AState :=
  match fuel with
  | 0 => .ok ((m, some args, dirs), [])
  | Nat.succ fuel1 =>
    if m.pending_tasks.isEmpty && m.running_tasks.isEmpty then
      .ok ((m, some args, dirs), [])
    else
      let cr := check_resources w m
      let evLog := log_progress cr.1
      let subRes :=
        if dynopro then submit_until_oor_dynopro w args dirs cr.1
        else if cr.1.gpus_per_task > 0 then submit_until_oor_gpu w args dirs cr.1
        else submit_until_oor_cpu w args dirs cr.1
      match subRes with
      | .error (e, tr) => .error (e, cr.2 ++ evLog ++ tr)
      | .ok ((m1, args1, dirs1), tr1) =>
        let procRes :=
          if adaptive then
            adaptive_process_futures w (sched.headD []) (m1, some args1, dirs1)
          else
            match non_adaptive_process_futures (sched.headD []) m1 with
            | .error et => .error et
            | .ok (m2, tr2) => .ok ((m2, some args1, dirs1), tr2)
        match procRes with
        | .error (e, tr2) => .error (e, cr.2 ++ evLog ++ tr1 ++ tr2)
        | .ok ((m2, aL2, dL2), tr2) =>
          PRes.withPre (cr.2 ++ evLog ++ tr1 ++ tr2)
            (poolexecutor_loop w adaptive dynopro fuel1 sched.tail
              (aL2.getD []) dL2 m2)

/-- `SuperFluxManager.poolexecutor` (manager.py lines 272-381): the
`resource.drain` RPC for target "0" (line 359), then the scoped executor
and the dispatch loop. -/
def poolexecutor (w : WEnv) (adaptive dynopro : Bool) (fuel : Nat)
    (sched : List (List Nat)) (task_arg_list : List (List String))
    (task_dir_list : Option (List PyPath)) (m : Mgr) : PRes AState :=
  PRes.withPre [Event.rpc "resource.drain" "0"]
    (poolexecutor_loop w adaptive dynopro fuel sched task_arg_list task_dir_list m)

/-! ## Observation helpers and concrete test fixtures -/

/-- Final manager of an adaptive-state result, when no exception escaped. -/
def finalMgr : PRes AState → Option Mgr
  | .ok ((m, _, _), _) => some m
  | .error _ => none

/-- Final manager of a manager-valued result, when no exception escaped. -/
def finalOf : PRes Mgr → Option Mgr
  | .ok (m, _) => some m
  | .error _ => none

/-- The uncaught exception of a result, if any. -/
def presErr {σ : Type} : PRes σ → Option PyError
  | .error (e, _) => some e
  | .ok _ => none

/-- Total bucket occupancy: `|pending| + |running| + |completed| + |failed|`. -/
def bucketSum (m : Mgr) : Nat :=
  m.pending_tasks.length + m.running_tasks.length +
    m.completed_tasks.length + m.failed_tasks.length

/-- Whether an event submits through a locally constructed executor. -/
def eventIsFreshSubmit : Event → Bool
  | .submitJob ExecutorRef.freshLocal _ => true
  | _ => false

/-- A launch directory for concrete runs. -/
def cwd0 : PyPath := ⟨true, ["home"]⟩

/-- A workflow output directory (`paths.out_dir`) for concrete runs. -/
def outDir0 : PyPath := ⟨true, ["home", "wf", "out"]⟩

/-- A world where every reaped future raised a wrapper exception and one
core, zero GPUs are free. -/
def wRaise : WEnv :=
  { osEnviron := [("PATH", "/usr/bin")], osCwd := cwd0,
    probes := fun _ => (1, 0), outcomeOf := fun _ => Outcome.raised }

/-- A jobspec value used to populate concrete futures. -/
def js0 : JobSpec :=
  { cmd := ["cmd"], res := ResSpec.fromCommand 1 1 0, cwd := outDir0,
    shell_mpi := none, shell_cpu_affinity := some "per-task",
    shell_gpu_affinity := none, environment := [],
    stdout := PyPath.join outDir0 ⟨false, ["stdout"]⟩,
    stderr := PyPath.join outDir0 ⟨false, ["stderr"]⟩ }

/-- A manager with the given buckets, 1 core per task, no GPUs. -/
def mkMgr (pending running completed : List Nat) (futs : List Future)
    (tpj : List Nat) (freq free : Nat) : Mgr :=
  { pending_tasks := pending, running_tasks := running,
    completed_tasks := completed, failed_tasks := [], futures := futs,
    tasks_per_job := tpj, cores_per_task := 1, gpus_per_task := 0,
    nnodes := none, gpus_per_node := none, gen_task_cmd := ["cmd"],
    write_restart_freq := freq, out_dir := outDir0, free_cores := free,
    free_gpus := 0, fs := [], probeCount := 0 }

/-- C1 fixture: a fresh one-task manager (id 5), built by the constructor. -/
def c1mgr : Except PyError Mgr :=
  mgrInit [5] ["cmd"] 100 TPJArg.noneArg 1 0 none none none outDir0 []

/-- C1 fixture: the adaptive run in which task 5 is submitted in iteration 1
and its future raises on reap. -/
def c1run : PRes AState :=
  match c1mgr with
  | .ok m => poolexecutor wRaise true false 2 [[5], []] [["a"]] none m
  | .error e => .error (e, [])

/-- C2 fixture: a future for task 7 that exits with code 1. -/
def fut7 : Future :=
  { task := 7, job_spec := js0, workdir := outDir0, outcome := Outcome.finished 1 }

/-- C2 fixture: manager with task 7 running and its future in flight. -/
def c2mgr : Mgr := mkMgr [] [7] [] [fut7] [1] 100 0

/-- C2 fixture: adaptive reap of the nonzero-exit future. -/
def c2adaptive : PRes AState :=
  adaptive_process_futures wRaise [7] (c2mgr, some [], none)

/-- C2 fixture: non-adaptive reap of the same nonzero-exit future. -/
def c2nonadaptive : PRes Mgr := non_adaptive_process_futures [7] c2mgr

/-- C3 fixture: head of `tasks_per_job` is 3 but only one core is free, so
the claimed admission gate `free_cores >= tpj_head * cores_per_task` fails. -/
def c3mgr : Mgr := mkMgr [9] [] [] [] [3] 100 1

/-- C3 fixture: one opportunistic submission attempt on `c3mgr`. -/
def c3run : PRes AState := adaptive_submit wRaise (c3mgr, some [["a"]], none)

/-- C6 fixture: a future for task 4 that exits successfully. -/
def fut4ok : Future :=
  { task := 4, job_spec := js0, workdir := outDir0, outcome := Outcome.finished 0 }

/-- C6 fixture: `write_restart_freq = 1`, task 4 running, future in flight;
free cores 0 keep the opportunistic submission gate closed. -/
def c6mgr : Mgr := mkMgr [] [4] [] [fut4ok] [1] 1 0

/-- C6 fixture: the adaptive reap of the successful future. -/
def c6adaptive : PRes AState :=
  adaptive_process_futures wRaise [4] (c6mgr, some [], none)

/-- C6 fixture: the non-adaptive reap of the same successful future. -/
def c6nonadaptive : PRes Mgr := non_adaptive_process_futures [4] c6mgr

/-- C9 fixture: a manager with nothing to do, so its `poolexecutor` trace
is exactly the pre-loop RPC. -/
def c9mgr : Mgr := mkMgr [] [] [] [] [] 100 0

/-- C9 fixture: the trivial `poolexecutor` run. -/
def c9run : PRes AState := poolexecutor wRaise false false 1 [] [] none c9mgr

/-- Whether a trace is free of resource-manager drain/undrain RPCs. -/
def noRpcIn (evs : List Event) : Bool :=
  evs.all (fun e => !(eventIsRpc e))

/-- The manager produced by a constructor call, if it did not raise. -/
def exceptMgr : Except PyError Mgr → Option Mgr
  | .ok m => some m
  | .error _ => none

/-! ## Theorems -/

set_option maxRecDepth 8000

/-- Claim C1 (code bug): with initial task list `[5]` (one task) and the
adaptive strategy, after task 5 is submitted and its future raises a
wrapper exception, the state observed at the next evaluation of the loop's
termination test has `|pending|+|running|+|completed|+|failed| = 2`, not 1:
the failed reap appended `(5, job_spec)` to `failed_tasks` without removing
5 from `running_tasks` (adaptive_strategy.py lines 76-83), so the id is
duplicated across buckets and the loop can never terminate. -/
theorem C1_conservation_violated :
    (exceptMgr c1mgr).map (fun m => m.pending_tasks.length) = some 1 ∧
    (finalMgr c1run).map bucketSum = some 2 ∧
    (finalMgr c1run).map (fun m => m.running_tasks) = some [5] ∧
    (finalMgr c1run).map (fun m => m.failed_tasks.map Prod.fst) = some [5] ∧
    (finalMgr c1run).map (fun m => m.pending_tasks) = some [] := by
  decide

/-- Claim C2 (code bug): reaping a future whose task exited nonzero leaves
its id in `running_tasks` under the adaptive variant (the failure arms of
adaptive_strategy.py lines 76-92 `continue` before any removal), while the
non-adaptive variant removes it exactly once: at the same input, the
adaptive reap ends with task 7 still running and also failed, the
non-adaptive reap with it removed and failed. -/
theorem C2_running_removal_violated :
    (finalMgr c2adaptive).map (fun m => m.running_tasks) = some [7] ∧
    (finalMgr c2adaptive).map (fun m => m.failed_tasks.map Prod.fst) = some [7] ∧
    (finalOf c2nonadaptive).map (fun m => m.running_tasks) = some [] ∧
    (finalOf c2nonadaptive).map (fun m => m.failed_tasks.map Prod.fst) = some [7] := by
  decide

/-- Claim C3 (code bug): with `tasks_per_job = [3]`, `cores_per_task = 1`
and `free_cores = 1`, the claimed admission gate
`free_cores >= tpj_head * cores_per_task` is false, yet `adaptive_submit`
pops pending head 9 and performs an executor submission — because
adaptive_strategy.py line 38 hard-codes `tasks_per_job = 1` whenever the
deque is truthy — and it does so through a freshly constructed
`FluxExecutor()` without `base_out_dir` (lines 27-33), not the submission
strategy's construction path; the call then raises `AttributeError` at
`running_tasks.append` on a set (line 64). -/
theorem C3_opportunistic_gate_violated :
    decide (c3mgr.tasks_per_job.headD 0 * c3mgr.cores_per_task ≤ c3mgr.free_cores)
      = false ∧
    submittedTasks (traceOf c3run) = [9] ∧
    (traceOf c3run).any eventIsFreshSubmit = true ∧
    presErr c3run = some PyError.attributeError := by
  decide

/-- Claim C6 (code bug): with `write_restart_freq = 1`, a successful
adaptive reap appends task 4 to `completed_tasks` (so
`|completed| mod write_restart_freq = 0` holds) yet writes no restart
snapshot — `AdaptiveStrategy.process_futures` (adaptive_strategy.py lines
70-100) contains no `create_restart_file` call at all — while the
non-adaptive variant snapshots once at the same input. -/
theorem C6_adaptive_never_snapshots :
    c6mgr.write_restart_freq = 1 ∧
    (finalMgr c6adaptive).map (fun m => m.completed_tasks) = some [4] ∧
    (traceOf c6adaptive).countP eventIsRestartWrite = 0 ∧
    (traceOf c6nonadaptive).countP eventIsRestartWrite = 1 := by
  decide

/-- Claim C9, counterexample: the single pre-loop RPC of `poolexecutor` has
topic `resource.drain` (manager.py line 359), and applying its effect to an
undrained cluster leaves node "0" drained, i.e. NOT available — the claim
that the RPC "undrains/enables node 0" is false. -/
theorem C9_drain_counterexample :
    traceOf c9run = [Event.rpc "resource.drain" "0"] ∧
    nodeAvailable (rpcEffects [] (traceOf c9run)) "0" = false := by
  decide

/-- Writing a file makes lookups of its name find exactly the new record:
the overwrite branch. -/
theorem find_map_write (name : String) (d : PickleDict) :
    ∀ fs : FileSys, (fs.find? (fun f => f.1 = name)).isSome →
      (fs.map (fun f => if f.1 = name then (name, d) else f)).find?
        (fun f => f.1 = name) = some (name, d) := by
  intro fs
  induction fs with
  | nil => simp
  | cons x xs ih =>
    intro h
    by_cases hx : x.1 = name
    · simp [hx]
    · have h2 : (xs.find? (fun f => f.1 = name)).isSome := by
        simpa [List.find?_cons, hx] using h
      simp [List.find?_cons, hx, ih h2]

/-- Writing a file makes lookups of its name find exactly the new record:
the append branch. -/
theorem find_append_write (name : String) (d : PickleDict) :
    ∀ fs : FileSys, fs.find? (fun f => f.1 = name) = none →
      (fs ++ [(name, d)]).find? (fun f => f.1 = name) = some (name, d) := by
  intro fs
  induction fs with
  | nil => simp
  | cons x xs ih =>
    intro h
    by_cases hx : x.1 = name
    · simp [List.find?_cons, hx] at h
    · have h2 : xs.find? (fun f => f.1 = name) = none := by
        simpa [List.find?_cons, hx] using h
      simp [List.find?_cons, hx, ih h2]

/-- After `writeFile`, looking the name up yields the written record. -/
theorem find_writeFile (fs : FileSys) (name : String) (d : PickleDict) :
    (writeFile fs name d).find? (fun f => f.1 = name) = some (name, d) := by
  unfold writeFile
  by_cases h : (fs.find? (fun f => f.1 = name)).isSome
  · simpa [h] using find_map_write name d fs h
  · have h2 : fs.find? (fun f => f.1 = name) = none := by
      cases hf : fs.find? (fun f => f.1 = name) <;> simp_all
    simpa [h] using find_append_write name d fs h2

/-- Claim C5: `create_restart_file` writes the four buckets as a record
keyed "Completed tasks" / "Running tasks" / "Pending tasks" /
"Failed tasks" to `restart_<|completed|>.dat`, and `load_restart` on that
file restores all four buckets to the snapshot-time contents in any
manager whose launch directory holds the written file. -/
theorem C5_restart_roundtrip :
    (∀ m : Mgr, (restartDict m).map Prod.fst
        = ["Completed tasks", "Running tasks", "Pending tasks", "Failed tasks"]) ∧
    (∀ m : Mgr,
        restartFileName m = "restart_" ++ toString m.completed_tasks.length ++ ".dat") ∧
    (∀ m mr : Mgr, mr.fs = ((create_restart_file m).1).fs →
        ∃ m2, load_restart (some (restartFileName m)) mr = Except.ok m2 ∧
          m2.completed_tasks = m.completed_tasks ∧
          m2.running_tasks = m.running_tasks ∧
          m2.pending_tasks = m.pending_tasks ∧
          m2.failed_tasks = m.failed_tasks) := by
  refine ⟨fun m => rfl, fun m => rfl, fun m mr hfs => ?_⟩
  have hfind : mr.fs.find? (fun f => f.1 = restartFileName m)
      = some (restartFileName m, restartDict m) := by
    rw [hfs]
    exact find_writeFile m.fs (restartFileName m) (restartDict m)
  refine ⟨{ mr with
            completed_tasks := m.completed_tasks
            running_tasks := m.running_tasks
            pending_tasks := m.pending_tasks
            failed_tasks := m.failed_tasks }, ?_, rfl, rfl, rfl, rfl⟩
  simp [load_restart, hfind, dictLookup, restartDict, List.find?]

/-- Claim C10: `load_restart` with no filename, or with a filename that
names no existing file, returns without raising and leaves all four
buckets untouched, so a manager constructed with an absent or mistyped
restart file silently starts fresh from `gen_task_list`. -/
theorem C10_missing_restart_is_noop :
    (∀ m : Mgr, load_restart none m = Except.ok m) ∧
    (∀ (m : Mgr) (name : String), m.fs.find? (fun f => f.1 = name) = none →
        load_restart (some name) m = Except.ok m) ∧
    (∀ (gtl : List Nat) (cmd : List String) (freq : Nat) (tpjA : TPJArg)
        (cpt gpt : Nat) (nn gpn : Option Nat) (name : String) (od : PyPath)
        (fs : FileSys),
        tpjA ≠ TPJArg.otherArg →
        fs.find? (fun f => f.1 = name) = none →
        ∃ m, mgrInit gtl cmd freq tpjA cpt gpt nn gpn (some name) od fs
            = Except.ok m ∧
          m.pending_tasks = gtl ∧ m.running_tasks = [] ∧
          m.completed_tasks = [] ∧ m.failed_tasks = []) := by
  refine ⟨fun m => rfl, fun m name h => ?_, ?_⟩
  · simp [load_restart, h]
  · intro gtl cmd freq tpjA cpt gpt nn gpn name od fs hne hfind
    cases tpjA with
    | otherArg => exact absurd rfl hne
    | noneArg =>
      refine ⟨{ pending_tasks := gtl, running_tasks := [], completed_tasks := [],
                failed_tasks := [], futures := [],
                tasks_per_job := List.replicate gtl.length 1,
                cores_per_task := cpt, gpus_per_task := gpt, nnodes := nn,
                gpus_per_node := gpn, gen_task_cmd := cmd,
                write_restart_freq := freq, out_dir := od, free_cores := 0,
                free_gpus := 0, fs := fs, probeCount := 0 },
             ?_, rfl, rfl, rfl, rfl⟩
      simp [mgrInit, load_restart, hfind]
    | realArg v =>
      refine ⟨{ pending_tasks := gtl, running_tasks := [], completed_tasks := [],
                failed_tasks := [], futures := [],
                tasks_per_job := List.replicate gtl.length v,
                cores_per_task := cpt, gpus_per_task := gpt, nnodes := nn,
                gpus_per_node := gpn, gen_task_cmd := cmd,
                write_restart_freq := freq, out_dir := od, free_cores := 0,
                free_gpus := 0, fs := fs, probeCount := 0 },
             ?_, rfl, rfl, rfl, rfl⟩
      simp [mgrInit, load_restart, hfind]
    | listArg xs =>
      refine ⟨{ pending_tasks := gtl, running_tasks := [], completed_tasks := [],
                failed_tasks := [], futures := [], tasks_per_job := xs,
                cores_per_task := cpt, gpus_per_task := gpt, nnodes := nn,
                gpus_per_node := gpn, gen_task_cmd := cmd,
                write_restart_freq := freq, out_dir := od, free_cores := 0,
                free_gpus := 0, fs := fs, probeCount := 0 },
             ?_, rfl, rfl, rfl, rfl⟩
      simp [mgrInit, load_restart, hfind]

/-- Witness for C5: the round-trip evaluated at a concrete snapshot state
and a distinct concrete reader. -/
theorem C5_restart_roundtrip_witness :
    ∃ m2, load_restart (some (restartFileName c2mgr))
        { c9mgr with fs := ((create_restart_file c2mgr).1).fs } = Except.ok m2 ∧
      m2.completed_tasks = c2mgr.completed_tasks ∧
      m2.running_tasks = c2mgr.running_tasks ∧
      m2.pending_tasks = c2mgr.pending_tasks ∧
      m2.failed_tasks = c2mgr.failed_tasks :=
  C5_restart_roundtrip.2.2 c2mgr
    { c9mgr with fs := ((create_restart_file c2mgr).1).fs } rfl

/-- Witness for C10: a manager constructed with a restart filename naming
no existing file starts fresh from its task list. -/
theorem C10_missing_restart_witness :
    load_restart (some "restart_9.dat") c9mgr = Except.ok c9mgr ∧
    ∃ m, mgrInit [1, 2] ["cmd"] 100 TPJArg.noneArg 1 0 none none
        (some "restart_9.dat") outDir0 [] = Except.ok m ∧
      m.pending_tasks = [1, 2] ∧ m.running_tasks = [] ∧
      m.completed_tasks = [] ∧ m.failed_tasks = [] :=
  ⟨C10_missing_restart_is_noop.2.1 c9mgr "restart_9.dat" rfl,
   C10_missing_restart_is_noop.2.2 [1, 2] ["cmd"] 100 TPJArg.noneArg 1 0 none
     none "restart_9.dat" outDir0 [] (by decide) rfl⟩

/-- Claim C8: neither `job_submit` nor `hetero_job_submit` mutates the
process environment (their traces contain no process-environment write, so
`os.environ` folded through them is unchanged); the job environment is the
caller-provided map or a copy of `os.environ`, and heterogeneous mode sets
`SLURM_GPUS_PER_NODE=<gpus_per_node>` only on that copy. -/
theorem C8_no_environ_mutation (fl : Fluxlet) (ex : ExecutorRef)
    (cmd : List String) (task : Nat) (targs : List String)
    (td bod : Option PyPath) (sga sca : Bool) (smpi : Option Bool)
    (env : Option Env) (osEnv : Env) (osCwd : PyPath) (outc : Outcome)
    (nn gpn : Nat) :
    procEnvAfter osEnv
        (fl.job_submit ex cmd task targs td bod sga sca smpi env osEnv osCwd outc).2
      = osEnv ∧
    procEnvAfter osEnv
        (fl.hetero_job_submit ex nn gpn cmd task targs td bod sga sca smpi env
          osEnv osCwd outc).2
      = osEnv ∧
    (fl.job_submit ex cmd task targs td bod sga sca smpi env osEnv osCwd
        outc).1.job_spec.environment
      = (match env with | none => osEnv | some e => e) ∧
    (fl.hetero_job_submit ex nn gpn cmd task targs td bod sga sca smpi env
        osEnv osCwd outc).1.job_spec.environment
      = envSet (match env with | none => osEnv | some e => e)
          "SLURM_GPUS_PER_NODE" (toString gpn) := by
  refine ⟨?_, ?_, rfl, rfl⟩ <;>
    simp [Fluxlet.job_submit, Fluxlet.hetero_job_submit, resolve_workdir,
      procEnvAfter]

/-- Normalized component lists contain no `.` or `..` entries. -/
theorem normComps_no_dots :
    ∀ (cs acc : List String), (∀ x ∈ acc, x ≠ "." ∧ x ≠ "..") →
      ∀ x ∈ normComps acc cs, x ≠ "." ∧ x ≠ ".." := by
  intro cs
  induction cs with
  | nil =>
    intro acc h
    simpa [normComps] using h
  | cons c cs ih =>
    intro acc h
    simp only [normComps]
    by_cases h1 : c = "."
    · rw [if_pos h1]
      exact ih acc h
    · rw [if_neg h1]
      by_cases h2 : c = ".."
      · rw [if_pos h2]
        exact ih acc.dropLast (fun x hx => h x (List.dropLast_subset acc hx))
      · rw [if_neg h2]
        refine ih (acc ++ [c]) (fun x hx => ?_)
        rcases List.mem_append.mp hx with hh | hh
        · exact h x hh
        · simp only [List.mem_singleton] at hh
          subst hh
          exact ⟨h1, h2⟩

/-- Normalization leaves already-clean component lists untouched. -/
theorem normComps_clean :
    ∀ (cs acc : List String), (∀ x ∈ cs, x ≠ "." ∧ x ≠ "..") →
      normComps acc cs = acc ++ cs := by
  intro cs
  induction cs with
  | nil =>
    intro acc _
    simp [normComps]
  | cons c cs ih =>
    intro acc h
    have hc := h c (by simp)
    simp only [normComps]
    rw [if_neg hc.1, if_neg hc.2, ih (acc ++ [c]) (fun x hx => h x (by simp [hx]))]
    simp

/-- Normalization is idempotent. -/
theorem normComps_idem (cs : List String) :
    normComps [] (normComps [] cs) = normComps [] cs := by
  have h := normComps_no_dots cs [] (by simp)
  simpa using normComps_clean (normComps [] cs) [] h

/-- The result of `Path.resolve()` is canonical. -/
theorem resolveIn_canonical (cwd p : PyPath) : (PyPath.resolveIn cwd p).canonical := by
  refine ⟨rfl, normComps_idem _⟩

/-- A directory is part of its own `mkdir(parents=True)` creation chain. -/
theorem self_mem_dirChain (p : PyPath) : p ∈ dirChain p := by
  unfold dirChain
  refine List.mem_map.mpr ⟨p.comps.length, by simp, ?_⟩
  cases p with
  | mk a c => simp

/-- The workdir (with every ancestor) exists in the filesystem produced by
the events preceding the executor submission. -/
theorem mkdir_before_submit (task : Nat) (td bod launch : Option PyPath)
    (osCwd : PyPath) (fs : List PyPath) (ex : ExecutorRef) (fut : Future) :
    ∀ q ∈ dirChain (resolve_workdir task td bod launch osCwd).1,
      q ∈ fsAfter osCwd fs
        (((resolve_workdir task td bod launch osCwd).2
            ++ [Event.submitJob ex fut]).takeWhile (fun e => !(eventIsSubmit e))) := by
  intro q hq
  simp only [resolve_workdir] at hq ⊢
  simp [List.takeWhile, eventIsSubmit, fsAfter, applyEvent, hq]

/-- Claim C7: the resolved working directory follows the claimed case
analysis (absolute `task_dir` used as such; relative `task_dir` resolved
against `base_out_dir`, or the launch directory when unset; no `task_dir`
meaning `base_out_dir/str(task_id)` or `launch_dir/str(task_id)`); it is
absolute and canonical — an already-canonical absolute `task_dir` is
returned verbatim — the directory and its parents exist before the
executor's submit event, and the trace never changes the process working
directory. -/
theorem C7_workdir_resolution (fl : Fluxlet) (ex : ExecutorRef)
    (cmd : List String) (task : Nat) (targs : List String)
    (td bod : Option PyPath) (sga sca : Bool) (smpi : Option Bool)
    (env : Option Env) (osEnv : Env) (osCwd : PyPath) (outc : Outcome)
    (fs : List PyPath) (_hcwd : osCwd.isAbs = true) :
    let r := fl.job_submit ex cmd task targs td bod sga sca smpi env osEnv osCwd outc
    (∀ p : PyPath, td = some p → p.isAbs = true →
        r.1.workdir = PyPath.resolveIn osCwd p) ∧
    (∀ p : PyPath, td = some p → p.isAbs = true → p.canonical →
        r.1.workdir = p) ∧
    (∀ p : PyPath, td = some p → p.isAbs = false →
        r.1.workdir = PyPath.resolveIn osCwd (PyPath.join (bod.getD osCwd) p)) ∧
    (td = none →
        r.1.workdir
          = PyPath.resolveIn osCwd
              (PyPath.join (bod.getD osCwd) ⟨false, [toString task]⟩)) ∧
    r.1.workdir.canonical ∧
    (∀ q ∈ dirChain r.1.workdir,
        q ∈ fsAfter osCwd fs (r.2.takeWhile (fun e => !(eventIsSubmit e)))) ∧
    r.2.all (fun e => !(eventIsChdir e)) = true := by
  intro r
  have hr : r = fl.job_submit ex cmd task targs td bod sga sca smpi env osEnv
      osCwd outc := rfl
  have hwd : ∃ p0, r.1.workdir = PyPath.resolveIn osCwd p0 := by
    cases td with
    | none => exact ⟨_, rfl⟩
    | some p => exact ⟨_, rfl⟩
  refine ⟨?_, ?_, ?_, ?_, ?_, ?_, ?_⟩
  · intro p hp habs
    subst hp
    rw [hr]
    simp [Fluxlet.job_submit, resolve_workdir, habs]
  · intro p hp habs hcanon
    subst hp
    rw [hr]
    simp only [Fluxlet.job_submit, resolve_workdir]
    cases p with
    | mk a c =>
      simp only at habs
      subst habs
      simp [PyPath.resolveIn, hcanon.2]
  · intro p hp habs
    subst hp
    rw [hr]
    simp [Fluxlet.job_submit, resolve_workdir, habs]
  · intro hp
    subst hp
    rw [hr]
    simp [Fluxlet.job_submit, resolve_workdir]
  · obtain ⟨p0, hp0⟩ := hwd
    rw [hp0]
    exact resolveIn_canonical osCwd p0
  · intro q hq
    rw [hr]
    exact mkdir_before_submit task td bod (some osCwd) osCwd fs ex _ q hq
  · rw [hr]
    simp [Fluxlet.job_submit, resolve_workdir, eventIsChdir]

/-- Submitted-task extraction distributes over trace concatenation. -/
theorem submittedTasks_append (a b : List Event) :
    submittedTasks (a ++ b) = submittedTasks a ++ submittedTasks b := by
  simp [submittedTasks]

/-- A homogeneous submission trace submits exactly its task. -/
theorem submittedTasks_job_submit (fl : Fluxlet) (ex : ExecutorRef)
    (cmd : List String) (task : Nat) (targs : List String)
    (td bod : Option PyPath) (sga sca : Bool) (smpi : Option Bool)
    (env : Option Env) (osEnv : Env) (osCwd : PyPath) (outc : Outcome) :
    submittedTasks
        (fl.job_submit ex cmd task targs td bod sga sca smpi env osEnv osCwd outc).2
      = [task] := by
  simp [Fluxlet.job_submit, resolve_workdir, submittedTasks]

/-- A heterogeneous submission trace submits exactly its task. -/
theorem submittedTasks_hetero_job_submit (fl : Fluxlet) (ex : ExecutorRef)
    (nn gpn : Nat) (cmd : List String) (task : Nat) (targs : List String)
    (td bod : Option PyPath) (sga sca : Bool) (smpi : Option Bool)
    (env : Option Env) (osEnv : Env) (osCwd : PyPath) (outc : Outcome) :
    submittedTasks
        (fl.hetero_job_submit ex nn gpn cmd task targs td bod sga sca smpi env
          osEnv osCwd outc).2
      = [task] := by
  simp [Fluxlet.hetero_job_submit, resolve_workdir, submittedTasks]

/-- FIFO property of the CPU-affine admission loop: with aligned input
deques, the loop succeeds, the tasks it submits are exactly a front
segment of the pending deque in order, and the remaining pending deque is
the corresponding tail. -/
theorem submitCpuGo_fifo (w : WEnv) :
    ∀ (fuel : Nat) (m : Mgr) (args : List (List String))
      (dirs : Option (List PyPath)),
      m.pending_tasks.length ≤ fuel →
      m.pending_tasks.length ≤ args.length →
      (∀ dl, dirs = some dl → m.pending_tasks.length ≤ dl.length) →
      ∃ k st tr, submitCpuGo w fuel args dirs m = .ok (st, tr) ∧
        submittedTasks tr = m.pending_tasks.take k ∧
        st.1.pending_tasks = m.pending_tasks.drop k := by
  intro fuel
  induction fuel with
  | zero =>
    intro m args dirs h1 h2 h3
    have hpe : m.pending_tasks = [] :=
      List.eq_nil_of_length_eq_zero (Nat.le_zero.mp h1)
    exact ⟨0, (m, args, dirs), [], by simp [submitCpuGo],
      by simp [submittedTasks], by simp⟩
  | succ fuel ih =>
    intro m args dirs h1 h2 h3
    cases hp : m.pending_tasks with
    | nil =>
      exact ⟨0, (m, args, dirs), [], by simp [submitCpuGo, hp],
        by simp [submittedTasks, hp], by simp [hp]⟩
    | cons t ps =>
      cases htpj : m.tasks_per_job with
      | nil =>
        exact ⟨0, (m, args, dirs), [], by simp [submitCpuGo, hp, htpj],
          by simp [submittedTasks, hp], by simp [hp]⟩
      | cons tpj tpjs =>
        by_cases hfc : m.free_cores < tpj * m.cores_per_task
        · exact ⟨0, (m, args, dirs), [], by simp [submitCpuGo, hp, htpj, hfc],
            by simp [submittedTasks, hp], by simp [hp]⟩
        · have hps_fuel : ps.length ≤ fuel := by
            rw [hp] at h1
            simpa using h1
          cases hargs : args with
          | nil =>
            rw [hp, hargs] at h2
            simp at h2
          | cons a as1 =>
            have hps_args : ps.length ≤ as1.length := by
              rw [hp, hargs] at h2
              simpa using h2
            cases hdirs : dirs with
            | none =>
              obtain ⟨k, st, tr, heq, hsub, hdrop⟩ :=
                ih { m with pending_tasks := ps,
                            futures := m.futures
                              ++ [(cpuAffineSubmit w m t tpj a none).1],
                            running_tasks := setAdd m.running_tasks t,
                            tasks_per_job := tpjs,
                            free_cores := m.free_cores - tpj * m.cores_per_task }
                  as1 none hps_fuel hps_args (fun dl hdl => by cases hdl)
              refine ⟨k + 1, st,
                (cpuAffineSubmit w m t tpj a none).2 ++ [Event.sleep] ++ tr,
                ?_, ?_, ?_⟩
              · simp only [submitCpuGo, hp, htpj]
                rw [if_neg hfc]
                simp only [popDirs]
                rw [heq]
                rfl
              · rw [submittedTasks_append, submittedTasks_append, hsub]
                simp [submittedTasks, cpuAffineSubmit,
                  Fluxlet.job_submit, resolve_workdir]
              · rw [hdrop]
                simp
            | some dl =>
              cases dl with
              | nil =>
                have := h3 [] hdirs
                rw [hp] at this
                simp at this
              | cons d ds =>
                have hps_dirs : ∀ dl', some ds = some dl' → ps.length ≤ dl'.length := by
                  intro dl' hdl'
                  cases hdl'
                  have := h3 (d :: ds) hdirs
                  rw [hp] at this
                  simpa using this
                obtain ⟨k, st, tr, heq, hsub, hdrop⟩ :=
                  ih { m with pending_tasks := ps,
                              futures := m.futures
                                ++ [(cpuAffineSubmit w m t tpj a (some d)).1],
                              running_tasks := setAdd m.running_tasks t,
                              tasks_per_job := tpjs,
                              free_cores := m.free_cores - tpj * m.cores_per_task }
                    as1 (some ds) hps_fuel hps_args hps_dirs
                refine ⟨k + 1, st,
                  (cpuAffineSubmit w m t tpj a (some d)).2 ++ [Event.sleep] ++ tr,
                  ?_, ?_, ?_⟩
                · simp only [submitCpuGo, hp, htpj]
                  rw [if_neg hfc]
                  simp only [popDirs]
                  rw [heq]
                  rfl
                · rw [submittedTasks_append, submittedTasks_append, hsub]
                  simp [submittedTasks, cpuAffineSubmit,
                    Fluxlet.job_submit, resolve_workdir]
                · rw [hdrop]
                  simp

/-- Trace of a prefixed result. -/
theorem traceOf_withPre {σ : Type} (evs : List Event) (r : PRes σ) :
    traceOf (PRes.withPre evs r) = evs ++ traceOf r := by
  cases r with
  | error et => cases et; rfl
  | ok a => cases a; rfl

/-- RPC-freeness distributes over trace concatenation. -/
theorem noRpcIn_append (a b : List Event) :
    noRpcIn (a ++ b) = (noRpcIn a && noRpcIn b) := by
  simp [noRpcIn]

/-- A homogeneous submission emits no RPC. -/
theorem noRpcIn_job_submit (fl : Fluxlet) (ex : ExecutorRef)
    (cmd : List String) (task : Nat) (targs : List String)
    (td bod : Option PyPath) (sga sca : Bool) (smpi : Option Bool)
    (env : Option Env) (osEnv : Env) (osCwd : PyPath) (outc : Outcome) :
    noRpcIn
        (fl.job_submit ex cmd task targs td bod sga sca smpi env osEnv osCwd outc).2
      = true := by
  simp [Fluxlet.job_submit, resolve_workdir, noRpcIn, eventIsRpc]

/-- A heterogeneous submission emits no RPC. -/
theorem noRpcIn_hetero_job_submit (fl : Fluxlet) (ex : ExecutorRef)
    (nn gpn : Nat) (cmd : List String) (task : Nat) (targs : List String)
    (td bod : Option PyPath) (sga sca : Bool) (smpi : Option Bool)
    (env : Option Env) (osEnv : Env) (osCwd : PyPath) (outc : Outcome) :
    noRpcIn
        (fl.hetero_job_submit ex nn gpn cmd task targs td bod sga sca smpi env
          osEnv osCwd outc).2
      = true := by
  simp [Fluxlet.hetero_job_submit, resolve_workdir, noRpcIn, eventIsRpc]

/-- A successful dynopro submission submits exactly its task and emits no
RPC. -/
theorem dynoproSubmit_ok_facts (w : WEnv) (m : Mgr) (t tpj : Nat)
    (a : List String) (d : Option PyPath) (sub : Future × List Event)
    (h : dynoproSubmit w m t tpj a d = .ok sub) :
    submittedTasks sub.2 = [t] ∧ noRpcIn sub.2 = true := by
  unfold dynoproSubmit at h
  cases hnn : m.nnodes with
  | none =>
    rw [hnn] at h
    simp at h
  | some nn =>
    cases hgpn : m.gpus_per_node with
    | none =>
      rw [hnn, hgpn] at h
      simp at h
    | some gpn =>
      rw [hnn, hgpn] at h
      simp only [Except.ok.injEq] at h
      subst h
      exact ⟨submittedTasks_hetero_job_submit _ _ _ _ _ _ _ _ _ _ _ _ _ _ _ _,
        noRpcIn_hetero_job_submit _ _ _ _ _ _ _ _ _ _ _ _ _ _ _ _⟩

/-- FIFO property of the GPU-affine admission loop (spec-modelled
strategy): same statement as the CPU-affine one. -/
theorem submitGpuGo_fifo (w : WEnv) :
    ∀ (fuel : Nat) (m : Mgr) (args : List (List String))
      (dirs : Option (List PyPath)),
      m.pending_tasks.length ≤ fuel →
      m.pending_tasks.length ≤ args.length →
      (∀ dl, dirs = some dl → m.pending_tasks.length ≤ dl.length) →
      ∃ k st tr, submitGpuGo w fuel args dirs m = .ok (st, tr) ∧
        submittedTasks tr = m.pending_tasks.take k ∧
        st.1.pending_tasks = m.pending_tasks.drop k := by
  intro fuel
  induction fuel with
  | zero =>
    intro m args dirs h1 h2 h3
    exact ⟨0, (m, args, dirs), [], by simp [submitGpuGo],
      by simp [submittedTasks], by simp⟩
  | succ fuel ih =>
    intro m args dirs h1 h2 h3
    cases hp : m.pending_tasks with
    | nil =>
      exact ⟨0, (m, args, dirs), [], by simp [submitGpuGo, hp],
        by simp [submittedTasks, hp], by simp [hp]⟩
    | cons t ps =>
      cases htpj : m.tasks_per_job with
      | nil =>
        exact ⟨0, (m, args, dirs), [], by simp [submitGpuGo, hp, htpj],
          by simp [submittedTasks, hp], by simp [hp]⟩
      | cons tpj tpjs =>
        by_cases hfc : m.free_cores < tpj * m.cores_per_task
            ∨ m.free_gpus < tpj * m.gpus_per_task
        · exact ⟨0, (m, args, dirs), [], by simp [submitGpuGo, hp, htpj, hfc],
            by simp [submittedTasks, hp], by simp [hp]⟩
        · have hps_fuel : ps.length ≤ fuel := by
            rw [hp] at h1
            simpa using h1
          cases hargs : args with
          | nil =>
            rw [hp, hargs] at h2
            simp at h2
          | cons a as1 =>
            have hps_args : ps.length ≤ as1.length := by
              rw [hp, hargs] at h2
              simpa using h2
            cases hdirs : dirs with
            | none =>
              obtain ⟨k, st, tr, heq, hsub, hdrop⟩ :=
                ih { m with pending_tasks := ps,
                            futures := m.futures
                              ++ [(gpuAffineSubmit w m t tpj a none).1],
                            running_tasks := setAdd m.running_tasks t,
                            tasks_per_job := tpjs,
                            free_cores := m.free_cores - tpj * m.cores_per_task,
                            free_gpus := m.free_gpus - tpj * m.gpus_per_task }
                  as1 none hps_fuel hps_args (fun dl hdl => by cases hdl)
              refine ⟨k + 1, st,
                (gpuAffineSubmit w m t tpj a none).2 ++ [Event.sleep] ++ tr,
                ?_, ?_, ?_⟩
              · simp only [submitGpuGo, hp, htpj]
                rw [if_neg hfc]
                simp only [popDirs]
                rw [heq]
                rfl
              · rw [submittedTasks_append, submittedTasks_append, hsub]
                simp [submittedTasks, gpuAffineSubmit,
                  Fluxlet.job_submit, resolve_workdir]
              · rw [hdrop]
                simp
            | some dl =>
              cases dl with
              | nil =>
                have := h3 [] hdirs
                rw [hp] at this
                simp at this
              | cons d ds =>
                have hps_dirs : ∀ dl', some ds = some dl' → ps.length ≤ dl'.length := by
                  intro dl' hdl'
                  cases hdl'
                  have := h3 (d :: ds) hdirs
                  rw [hp] at this
                  simpa using this
                obtain ⟨k, st, tr, heq, hsub, hdrop⟩ :=
                  ih { m with pending_tasks := ps,
                              futures := m.futures
                                ++ [(gpuAffineSubmit w m t tpj a (some d)).1],
                              running_tasks := setAdd m.running_tasks t,
                              tasks_per_job := tpjs,
                              free_cores := m.free_cores - tpj * m.cores_per_task,
                              free_gpus := m.free_gpus - tpj * m.gpus_per_task }
                    as1 (some ds) hps_fuel hps_args hps_dirs
                refine ⟨k + 1, st,
                  (gpuAffineSubmit w m t tpj a (some d)).2 ++ [Event.sleep] ++ tr,
                  ?_, ?_, ?_⟩
                · simp only [submitGpuGo, hp, htpj]
                  rw [if_neg hfc]
                  simp only [popDirs]
                  rw [heq]
                  rfl
                · rw [submittedTasks_append, submittedTasks_append, hsub]
                  simp [submittedTasks, gpuAffineSubmit,
                    Fluxlet.job_submit, resolve_workdir]
                · rw [hdrop]
                  simp

/-- FIFO property of the dynopro admission loop: same statement as the
CPU-affine one, under configured `nnodes`/`gpus_per_node`. -/
theorem submitDynoproGo_fifo (w : WEnv) :
    ∀ (fuel : Nat) (m : Mgr) (args : List (List String))
      (dirs : Option (List PyPath)),
      m.pending_tasks.length ≤ fuel →
      m.pending_tasks.length ≤ args.length →
      (∀ dl, dirs = some dl → m.pending_tasks.length ≤ dl.length) →
      m.nnodes.isSome = true →
      m.gpus_per_node.isSome = true →
      ∃ k st tr, submitDynoproGo w fuel args dirs m = .ok (st, tr) ∧
        submittedTasks tr = m.pending_tasks.take k ∧
        st.1.pending_tasks = m.pending_tasks.drop k := by
  intro fuel
  induction fuel with
  | zero =>
    intro m args dirs h1 h2 h3 h4 h5
    exact ⟨0, (m, args, dirs), [], by simp [submitDynoproGo],
      by simp [submittedTasks], by simp⟩
  | succ fuel ih =>
    intro m args dirs h1 h2 h3 h4 h5
    cases hp : m.pending_tasks with
    | nil =>
      exact ⟨0, (m, args, dirs), [], by simp [submitDynoproGo, hp],
        by simp [submittedTasks, hp], by simp [hp]⟩
    | cons t ps =>
      cases htpj : m.tasks_per_job with
      | nil =>
        exact ⟨0, (m, args, dirs), [], by simp [submitDynoproGo, hp, htpj],
          by simp [submittedTasks, hp], by simp [hp]⟩
      | cons tpj tpjs =>
        by_cases hfc : m.free_cores < tpj * m.cores_per_task
        · exact ⟨0, (m, args, dirs), [], by simp [submitDynoproGo, hp, htpj, hfc],
            by simp [submittedTasks, hp], by simp [hp]⟩
        · have hps_fuel : ps.length ≤ fuel := by
            rw [hp] at h1
            simpa using h1
          cases hargs : args with
          | nil =>
            rw [hp, hargs] at h2
            simp at h2
          | cons a as1 =>
            have hps_args : ps.length ≤ as1.length := by
              rw [hp, hargs] at h2
              simpa using h2
            obtain ⟨nn, hnn⟩ := Option.isSome_iff_exists.mp h4
            obtain ⟨gpn, hgpn⟩ := Option.isSome_iff_exists.mp h5
            cases hdirs : dirs with
            | none =>
              cases hds : dynoproSubmit w (check_resources w m).1 t tpj a none with
              | error e =>
                exfalso
                simp only [dynoproSubmit, check_resources] at hds
                rw [hnn, hgpn] at hds
                simp at hds
              | ok sub =>
                obtain ⟨hdsT, hdsR⟩ :=
                  dynoproSubmit_ok_facts w (check_resources w m).1 t tpj a none sub hds
                obtain ⟨k, st, tr, heq, hsubm, hdrop⟩ :=
                  ih { (check_resources w
                        { (check_resources w m).1 with
                          pending_tasks := ps,
                          futures := (check_resources w m).1.futures ++ [sub.1],
                          running_tasks :=
                            setAdd (check_resources w m).1.running_tasks t }).1 with
                        tasks_per_job := tpjs }
                    as1 none hps_fuel hps_args (fun dl hdl => by cases hdl) h4 h5
                refine ⟨k + 1, st,
                  ((check_resources w m).2 ++ log_progress (check_resources w m).1
                    ++ sub.2
                    ++ (check_resources w
                        { (check_resources w m).1 with
                          pending_tasks := ps,
                          futures := (check_resources w m).1.futures ++ [sub.1],
                          running_tasks :=
                            setAdd (check_resources w m).1.running_tasks t }).2
                    ++ log_progress
                        (check_resources w
                          { (check_resources w m).1 with
                            pending_tasks := ps,
                            futures := (check_resources w m).1.futures ++ [sub.1],
                            running_tasks :=
                              setAdd (check_resources w m).1.running_tasks t }).1
                    ++ [Event.sleep]) ++ tr,
                  ?eq, ?sub, ?drop⟩
                case eq =>
                  simp only [submitDynoproGo, hp, htpj]
                  rw [if_neg hfc]
                  simp only [popDirs, hds]
                  rw [heq]
                  simp only [PRes.withPre]
                case sub =>
                  simp only [submittedTasks_append]
                  rw [hdsT, hsubm]
                  simp [submittedTasks, log_progress, check_resources]
                case drop =>
                  rw [hdrop]
                  simp [check_resources]
            | some dl =>
              cases dl with
              | nil =>
                have := h3 [] hdirs
                rw [hp] at this
                simp at this
              | cons d ds =>
                have hps_dirs : ∀ dl', some ds = some dl' →
                    ps.length ≤ dl'.length := by
                  intro dl' hdl'
                  cases hdl'
                  have := h3 (d :: ds) hdirs
                  rw [hp] at this
                  simpa using this
                cases hds : dynoproSubmit w (check_resources w m).1 t tpj a (some d) with
                | error e =>
                  exfalso
                  simp only [dynoproSubmit, check_resources] at hds
                  rw [hnn, hgpn] at hds
                  simp at hds
                | ok sub =>
                  obtain ⟨hdsT, hdsR⟩ :=
                    dynoproSubmit_ok_facts w (check_resources w m).1 t tpj a
                      (some d) sub hds
                  obtain ⟨k, st, tr, heq, hsubm, hdrop⟩ :=
                    ih { (check_resources w
                          { (check_resources w m).1 with
                            pending_tasks := ps,
                            futures := (check_resources w m).1.futures ++ [sub.1],
                            running_tasks :=
                              setAdd (check_resources w m).1.running_tasks t }).1 with
                          tasks_per_job := tpjs }
                      as1 (some ds) hps_fuel hps_args hps_dirs h4 h5
                  refine ⟨k + 1, st,
                    ((check_resources w m).2 ++ log_progress (check_resources w m).1
                    ++ sub.2
                    ++ (check_resources w
                        { (check_resources w m).1 with
                          pending_tasks := ps,
                          futures := (check_resources w m).1.futures ++ [sub.1],
                          running_tasks :=
                            setAdd (check_resources w m).1.running_tasks t }).2
                    ++ log_progress
                        (check_resources w
                          { (check_resources w m).1 with
                            pending_tasks := ps,
                            futures := (check_resources w m).1.futures ++ [sub.1],
                            running_tasks :=
                              setAdd (check_resources w m).1.running_tasks t }).1
                    ++ [Event.sleep]) ++ tr,
                    ?eq2, ?sub2, ?drop2⟩
                  case eq2 =>
                    simp only [submitDynoproGo, hp, htpj]
                    rw [if_neg hfc]
                    simp only [popDirs, hds]
                    rw [heq]
                    simp only [PRes.withPre]
                  case sub2 =>
                    simp only [submittedTasks_append]
                    rw [hdsT, hsubm]
                    simp [submittedTasks, log_progress, check_resources]
                  case drop2 =>
                    rw [hdrop]
                    simp [check_resources]

/-- Claim C4: for every submission strategy (CPU-affine and dynopro from
the source; GPU-affine modelled from the spec), the admission predicate is
evaluated only on the head of the pending deque, submissions are strictly
FIFO (the submitted tasks are a front segment of the pending deque in
order and the leftover pending deque is the matching tail), and when the
predicate fails on the head the loop returns at once with no submission —
even if a later pending task would fit. -/
theorem C4_fifo_head_blocking :
    (∀ (w : WEnv) (m : Mgr) (args : List (List String))
        (dirs : Option (List PyPath)),
        m.pending_tasks.length ≤ args.length →
        (∀ dl, dirs = some dl → m.pending_tasks.length ≤ dl.length) →
        ∃ k st tr, submit_until_oor_cpu w args dirs m = .ok (st, tr) ∧
          submittedTasks tr = m.pending_tasks.take k ∧
          st.1.pending_tasks = m.pending_tasks.drop k) ∧
    (∀ (w : WEnv) (m : Mgr) (args : List (List String))
        (dirs : Option (List PyPath)) (t : Nat) (ps : List Nat)
        (tpj : Nat) (tpjs : List Nat),
        m.pending_tasks = t :: ps → m.tasks_per_job = tpj :: tpjs →
        m.free_cores < tpj * m.cores_per_task →
        submit_until_oor_cpu w args dirs m = .ok ((m, args, dirs), [])) ∧
    (∀ (w : WEnv) (m : Mgr) (args : List (List String))
        (dirs : Option (List PyPath)),
        m.pending_tasks.length ≤ args.length →
        (∀ dl, dirs = some dl → m.pending_tasks.length ≤ dl.length) →
        ∃ k st tr, submit_until_oor_gpu w args dirs m = .ok (st, tr) ∧
          submittedTasks tr = m.pending_tasks.take k ∧
          st.1.pending_tasks = m.pending_tasks.drop k) ∧
    (∀ (w : WEnv) (m : Mgr) (args : List (List String))
        (dirs : Option (List PyPath)) (t : Nat) (ps : List Nat)
        (tpj : Nat) (tpjs : List Nat),
        m.pending_tasks = t :: ps → m.tasks_per_job = tpj :: tpjs →
        m.free_cores < tpj * m.cores_per_task
          ∨ m.free_gpus < tpj * m.gpus_per_task →
        submit_until_oor_gpu w args dirs m = .ok ((m, args, dirs), [])) ∧
    (∀ (w : WEnv) (m : Mgr) (args : List (List String))
        (dirs : Option (List PyPath)),
        m.pending_tasks.length ≤ args.length →
        (∀ dl, dirs = some dl → m.pending_tasks.length ≤ dl.length) →
        m.nnodes.isSome = true → m.gpus_per_node.isSome = true →
        ∃ k st tr, submit_until_oor_dynopro w args dirs m = .ok (st, tr) ∧
          submittedTasks tr = m.pending_tasks.take k ∧
          st.1.pending_tasks = m.pending_tasks.drop k) ∧
    (∀ (w : WEnv) (m : Mgr) (args : List (List String))
        (dirs : Option (List PyPath)) (t : Nat) (ps : List Nat)
        (tpj : Nat) (tpjs : List Nat),
        m.pending_tasks = t :: ps → m.tasks_per_job = tpj :: tpjs →
        m.free_cores < tpj * m.cores_per_task →
        submit_until_oor_dynopro w args dirs m = .ok ((m, args, dirs), [])) := by
  refine ⟨?_, ?_, ?_, ?_, ?_, ?_⟩
  · intro w m args dirs h2 h3
    exact submitCpuGo_fifo w m.pending_tasks.length m args dirs le_rfl h2 h3
  · intro w m args dirs t ps tpj tpjs hp htpj hfc
    simp [submit_until_oor_cpu, hp, submitCpuGo, htpj, hfc]
  · intro w m args dirs h2 h3
    exact submitGpuGo_fifo w m.pending_tasks.length m args dirs le_rfl h2 h3
  · intro w m args dirs t ps tpj tpjs hp htpj hfc
    simp [submit_until_oor_gpu, hp, submitGpuGo, htpj, hfc]
  · intro w m args dirs h2 h3 h4 h5
    exact submitDynoproGo_fifo w m.pending_tasks.length m args dirs le_rfl h2 h3 h4 h5
  · intro w m args dirs t ps tpj tpjs hp htpj hfc
    simp [submit_until_oor_dynopro, hp, submitDynoproGo, htpj, hfc]

/-- Witness for C4: the FIFO property at a two-task manager with room for
both, and head blocking at `c3mgr` (head needs 3 cores, 1 free). -/
theorem C4_submission_witness :
    (∃ k st tr, submit_until_oor_cpu wRaise [["a"], ["b"]] none
        (mkMgr [1, 2] [] [] [] [1, 1] 100 2) = Except.ok (st, tr) ∧
      submittedTasks tr
        = (mkMgr [1, 2] [] [] [] [1, 1] 100 2).pending_tasks.take k ∧
      st.1.pending_tasks
        = (mkMgr [1, 2] [] [] [] [1, 1] 100 2).pending_tasks.drop k) ∧
    submit_until_oor_cpu wRaise [["a"]] none c3mgr
      = Except.ok ((c3mgr, [["a"]], none), []) :=
  ⟨C4_fifo_head_blocking.1 wRaise (mkMgr [1, 2] [] [] [] [1, 1] 100 2)
      [["a"], ["b"]] none (by decide) (fun dl hdl => by cases hdl),
   C4_fifo_head_blocking.2.1 wRaise c3mgr [["a"]] none 9 [] 3 [] rfl rfl
     (by decide)⟩

/-- The CPU-affine admission loop emits no resource-manager RPC. -/
theorem noRpc_submitCpuGo (w : WEnv) :
    ∀ (fuel : Nat) (args : List (List String)) (dirs : Option (List PyPath))
      (m : Mgr), noRpcIn (traceOf (submitCpuGo w fuel args dirs m)) = true := by
  intro fuel
  induction fuel with
  | zero =>
    intro args dirs m
    simp [submitCpuGo, traceOf, noRpcIn]
  | succ fuel ih =>
    intro args dirs m
    cases hp : m.pending_tasks with
    | nil => simp [submitCpuGo, hp, traceOf, noRpcIn]
    | cons t ps =>
      cases htpj : m.tasks_per_job with
      | nil => simp [submitCpuGo, hp, htpj, traceOf, noRpcIn]
      | cons tpj tpjs =>
        by_cases hfc : m.free_cores < tpj * m.cores_per_task
        · simp [submitCpuGo, hp, htpj, hfc, traceOf, noRpcIn]
        · cases args with
          | nil => simp [submitCpuGo, hp, htpj, hfc, traceOf, noRpcIn]
          | cons a as1 =>
            cases dirs with
            | none =>
              simp only [submitCpuGo, hp, htpj]
              rw [if_neg hfc]
              simp only [popDirs]
              rw [traceOf_withPre, noRpcIn_append, ih]
              simp [cpuAffineSubmit, Fluxlet.job_submit, resolve_workdir,
                noRpcIn, eventIsRpc]
            | some dl =>
              cases dl with
              | nil =>
                simp [submitCpuGo, hp, htpj, hfc, popDirs, traceOf, noRpcIn]
              | cons dd ds =>
                simp only [submitCpuGo, hp, htpj]
                rw [if_neg hfc]
                simp only [popDirs]
                rw [traceOf_withPre, noRpcIn_append, ih]
                simp [cpuAffineSubmit, Fluxlet.job_submit, resolve_workdir,
                  noRpcIn, eventIsRpc]

/-- The GPU-affine admission loop emits no resource-manager RPC. -/
theorem noRpc_submitGpuGo (w : WEnv) :
    ∀ (fuel : Nat) (args : List (List String)) (dirs : Option (List PyPath))
      (m : Mgr), noRpcIn (traceOf (submitGpuGo w fuel args dirs m)) = true := by
  intro fuel
  induction fuel with
  | zero =>
    intro args dirs m
    simp [submitGpuGo, traceOf, noRpcIn]
  | succ fuel ih =>
    intro args dirs m
    cases hp : m.pending_tasks with
    | nil => simp [submitGpuGo, hp, traceOf, noRpcIn]
    | cons t ps =>
      cases htpj : m.tasks_per_job with
      | nil => simp [submitGpuGo, hp, htpj, traceOf, noRpcIn]
      | cons tpj tpjs =>
        by_cases hfc : m.free_cores < tpj * m.cores_per_task
            ∨ m.free_gpus < tpj * m.gpus_per_task
        · simp [submitGpuGo, hp, htpj, hfc, traceOf, noRpcIn]
        · cases args with
          | nil => simp [submitGpuGo, hp, htpj, hfc, traceOf, noRpcIn]
          | cons a as1 =>
            cases dirs with
            | none =>
              simp only [submitGpuGo, hp, htpj]
              rw [if_neg hfc]
              simp only [popDirs]
              rw [traceOf_withPre, noRpcIn_append, ih]
              simp [gpuAffineSubmit, Fluxlet.job_submit, resolve_workdir,
                noRpcIn, eventIsRpc]
            | some dl =>
              cases dl with
              | nil =>
                simp [submitGpuGo, hp, htpj, hfc, popDirs, traceOf, noRpcIn]
              | cons dd ds =>
                simp only [submitGpuGo, hp, htpj]
                rw [if_neg hfc]
                simp only [popDirs]
                rw [traceOf_withPre, noRpcIn_append, ih]
                simp [gpuAffineSubmit, Fluxlet.job_submit, resolve_workdir,
                  noRpcIn, eventIsRpc]

/-- The dynopro admission loop emits no resource-manager RPC (the
`check_resources` status queries are probe events, not drain RPCs). -/
theorem noRpc_submitDynoproGo (w : WEnv) :
    ∀ (fuel : Nat) (args : List (List String)) (dirs : Option (List PyPath))
      (m : Mgr), noRpcIn (traceOf (submitDynoproGo w fuel args dirs m)) = true := by
  intro fuel
  induction fuel with
  | zero =>
    intro args dirs m
    simp [submitDynoproGo, traceOf, noRpcIn]
  | succ fuel ih =>
    intro args dirs m
    cases hp : m.pending_tasks with
    | nil => simp [submitDynoproGo, hp, traceOf, noRpcIn]
    | cons t ps =>
      cases htpj : m.tasks_per_job with
      | nil => simp [submitDynoproGo, hp, htpj, traceOf, noRpcIn]
      | cons tpj tpjs =>
        by_cases hfc : m.free_cores < tpj * m.cores_per_task
        · simp [submitDynoproGo, hp, htpj, hfc, traceOf, noRpcIn]
        · cases args with
          | nil =>
            simp [submitDynoproGo, hp, htpj, hfc, traceOf, noRpcIn,
              check_resources, log_progress, eventIsRpc]
          | cons a as1 =>
            cases dirs with
            | none =>
              simp only [submitDynoproGo, hp, htpj]
              rw [if_neg hfc]
              simp only [popDirs]
              cases hds : dynoproSubmit w (check_resources w m).1 t tpj a none with
              | error e =>
                simp [traceOf, noRpcIn, check_resources, log_progress, eventIsRpc]
              | ok sub =>
                rw [traceOf_withPre, noRpcIn_append, ih]
                have hsub := (dynoproSubmit_ok_facts w (check_resources w m).1
                  t tpj a none sub hds).2
                simp only [noRpcIn_append, hsub]
                simp [noRpcIn, eventIsRpc, check_resources, log_progress]
            | some dl =>
              cases dl with
              | nil =>
                simp [submitDynoproGo, hp, htpj, hfc, popDirs, traceOf,
                  noRpcIn, check_resources, log_progress, eventIsRpc]
              | cons dd ds =>
                simp only [submitDynoproGo, hp, htpj]
                rw [if_neg hfc]
                simp only [popDirs]
                cases hds : dynoproSubmit w (check_resources w m).1 t tpj a
                    (some dd) with
                | error e =>
                  simp [traceOf, noRpcIn, check_resources, log_progress,
                    eventIsRpc]
                | ok sub =>
                  rw [traceOf_withPre, noRpcIn_append, ih]
                  have hsub := (dynoproSubmit_ok_facts w (check_resources w m).1
                    t tpj a (some dd) sub hds).2
                  simp only [noRpcIn_append, hsub]
                  simp [noRpcIn, eventIsRpc, check_resources, log_progress]

/-- The adaptive opportunistic submission emits no resource-manager RPC. -/
theorem noRpc_adaptive_submit (w : WEnv) (st : AState) :
    noRpcIn (traceOf (adaptive_submit w st)) = true := by
  obtain ⟨m, aL, dL⟩ := st
  simp only [adaptive_submit]
  (repeat' split) <;>
    simp [traceOf, noRpcIn, eventIsRpc, check_resources, log_progress,
      adaptiveStrategySubmit, Fluxlet.job_submit, resolve_workdir, popDirs]

/-- One adaptive reap emits no resource-manager RPC. -/
theorem noRpc_adaptiveReapOne (w : WEnv) (fut : Future) (st : AState) :
    noRpcIn (traceOf (adaptiveReapOne w fut st)) = true := by
  obtain ⟨m, aL, dL⟩ := st
  simp only [adaptiveReapOne]
  (repeat' split) <;>
    first
    | exact noRpc_adaptive_submit w _
    | simp [traceOf, noRpcIn]

/-- The adaptive reap fold emits no resource-manager RPC. -/
theorem noRpc_adaptiveReapAll (w : WEnv) :
    ∀ (futs : List Future) (st : AState),
      noRpcIn (traceOf (adaptiveReapAll w futs st)) = true := by
  intro futs
  induction futs with
  | nil =>
    intro st
    simp [adaptiveReapAll, traceOf, noRpcIn]
  | cons f fs ih =>
    intro st
    simp only [adaptiveReapAll]
    cases hr : adaptiveReapOne w f st with
    | error et =>
      have h := noRpc_adaptiveReapOne w f st
      rw [hr] at h
      simpa [traceOf] using h
    | ok a =>
      obtain ⟨st1, tr1⟩ := a
      rw [traceOf_withPre, noRpcIn_append, ih]
      have h := noRpc_adaptiveReapOne w f st
      rw [hr] at h
      simpa [traceOf] using h

/-- One non-adaptive reap emits no resource-manager RPC (a restart write is
a file event, not an RPC). -/
theorem noRpc_nonAdaptiveReapOne (fut : Future) (m : Mgr) :
    noRpcIn (traceOf (nonAdaptiveReapOne fut m)) = true := by
  simp only [nonAdaptiveReapOne]
  (repeat' split) <;>
    simp [traceOf, noRpcIn, eventIsRpc, create_restart_file]

/-- The non-adaptive reap fold emits no resource-manager RPC. -/
theorem noRpc_nonAdaptiveReapAll :
    ∀ (futs : List Future) (m : Mgr),
      noRpcIn (traceOf (nonAdaptiveReapAll futs m)) = true := by
  intro futs
  induction futs with
  | nil =>
    intro m
    simp [nonAdaptiveReapAll, traceOf, noRpcIn]
  | cons f fs ih =>
    intro m
    simp only [nonAdaptiveReapAll]
    cases hr : nonAdaptiveReapOne f m with
    | error et =>
      have h := noRpc_nonAdaptiveReapOne f m
      rw [hr] at h
      simpa [traceOf] using h
    | ok a =>
      obtain ⟨m1, tr1⟩ := a
      rw [traceOf_withPre, noRpcIn_append, ih]
      have h := noRpc_nonAdaptiveReapOne f m
      rw [hr] at h
      simpa [traceOf] using h

/-- The whole dispatch loop emits no resource-manager RPC: the only drain
RPC is the one in the `poolexecutor` prologue. -/
theorem noRpc_poolexecutor_loop (w : WEnv) (adp dyn : Bool) :
    ∀ (fuel : Nat) (sched : List (List Nat)) (args : List (List String))
      (dirs : Option (List PyPath)) (m : Mgr),
      noRpcIn (traceOf (poolexecutor_loop w adp dyn fuel sched args dirs m))
        = true := by
  intro fuel
  induction fuel with
  | zero =>
    intro sched args dirs m
    simp [poolexecutor_loop, traceOf, noRpcIn]
  | succ fuel ih =>
    intro sched args dirs m
    simp only [poolexecutor_loop]
    split
    · simp [traceOf, noRpcIn]
    · have hsubR : noRpcIn (traceOf
          (if dyn then
            submit_until_oor_dynopro w args dirs (check_resources w m).1
          else if (check_resources w m).1.gpus_per_task > 0 then
            submit_until_oor_gpu w args dirs (check_resources w m).1
          else submit_until_oor_cpu w args dirs (check_resources w m).1))
          = true := by
        split_ifs
        · exact noRpc_submitDynoproGo w _ _ _ _
        · exact noRpc_submitGpuGo w _ _ _ _
        · exact noRpc_submitCpuGo w _ _ _ _
      cases hsr : (if dyn then
          submit_until_oor_dynopro w args dirs (check_resources w m).1
        else if (check_resources w m).1.gpus_per_task > 0 then
          submit_until_oor_gpu w args dirs (check_resources w m).1
        else submit_until_oor_cpu w args dirs (check_resources w m).1) with
      | error et =>
        rw [hsr] at hsubR
        obtain ⟨e, tr⟩ := et
        simp only [hsr]
        simp_all [traceOf, noRpcIn, check_resources, log_progress, eventIsRpc]
      | ok a =>
        rw [hsr] at hsubR
        obtain ⟨⟨m1, args1, dirs1⟩, tr1⟩ := a
        simp only [hsr]
        have hprocR : noRpcIn (traceOf
            (if adp then
              adaptive_process_futures w (sched.headD []) (m1, some args1, dirs1)
            else
              match non_adaptive_process_futures (sched.headD []) m1 with
              | .error et => .error et
              | .ok (m2, tr2) => .ok ((m2, some args1, dirs1), tr2)))
            = true := by
          split_ifs
          · exact noRpc_adaptiveReapAll w _ _
          · cases hnp : non_adaptive_process_futures (sched.headD []) m1 with
            | error et2 =>
              have h := noRpc_nonAdaptiveReapAll
                ((futuresWait m1 (sched.headD [])).1)
                ((futuresWait m1 (sched.headD [])).2)
              rw [show non_adaptive_process_futures (sched.headD []) m1
                  = nonAdaptiveReapAll ((futuresWait m1 (sched.headD [])).1)
                      ((futuresWait m1 (sched.headD [])).2) from rfl] at hnp
              rw [hnp] at h
              simpa [traceOf] using h
            | ok a2 =>
              obtain ⟨m2, tr2⟩ := a2
              have h := noRpc_nonAdaptiveReapAll
                ((futuresWait m1 (sched.headD [])).1)
                ((futuresWait m1 (sched.headD [])).2)
              rw [show non_adaptive_process_futures (sched.headD []) m1
                  = nonAdaptiveReapAll ((futuresWait m1 (sched.headD [])).1)
                      ((futuresWait m1 (sched.headD [])).2) from rfl] at hnp
              rw [hnp] at h
              simpa [traceOf] using h
        cases hpr : (if adp then
            adaptive_process_futures w (sched.headD []) (m1, some args1, dirs1)
          else
            match non_adaptive_process_futures (sched.headD []) m1 with
            | .error et => .error et
            | .ok (m2, tr2) => .ok ((m2, some args1, dirs1), tr2)) with
        | error et2 =>
          rw [hpr] at hprocR
          obtain ⟨e2, tr2⟩ := et2
          simp only [hpr]
          simp_all [traceOf, noRpcIn, check_resources, log_progress, eventIsRpc]
        | ok a2 =>
          rw [hpr] at hprocR
          obtain ⟨⟨m2, aL2, dL2⟩, tr2⟩ := a2
          simp only [hpr]
          rw [traceOf_withPre]
          simp_all [noRpcIn_append, traceOf, noRpcIn, check_resources,
            log_progress, eventIsRpc]
          exact ih sched.tail (aL2.getD []) dL2 m2

/-- Claim C9, amended: every `poolexecutor` run issues exactly one
resource-manager drain/undrain-class RPC — topic `resource.drain`, target
"0" — as the very first event, before any submission or reap; no further
such RPC occurs; and its effect on an undrained cluster is to make node
"0" unavailable (it drains rather than enables). -/
theorem C9_single_drain_rpc :
    (∀ (w : WEnv) (adp dyn : Bool) (fuel : Nat) (sched : List (List Nat))
        (args : List (List String)) (dirs : Option (List PyPath)) (m : Mgr),
        ∃ rest, traceOf (poolexecutor w adp dyn fuel sched args dirs m)
            = Event.rpc "resource.drain" "0" :: rest ∧
          noRpcIn rest = true) ∧
    nodeAvailable (applyRpc [] "resource.drain" "0") "0" = false := by
  constructor
  · intro w adp dyn fuel sched args dirs m
    refine ⟨traceOf (poolexecutor_loop w adp dyn fuel sched args dirs m),
      ?_, noRpc_poolexecutor_loop w adp dyn fuel sched args dirs m⟩
    simp [poolexecutor, traceOf_withPre]
  · decide

/-- Witness for C7: concrete evaluation with a relative `task_dir` against
a base output directory. -/
theorem C7_workdir_witness :
    cwd0.isAbs = true ∧
    (let r := Fluxlet.job_submit ⟨1, 1, 0⟩ ExecutorRef.managed ["cmd"] 3 []
        (some ⟨false, ["sub"]⟩) (some outDir0) false true none none [] cwd0
        (Outcome.finished 0)
     r.1.workdir.canonical ∧
     r.2.all (fun e => !(eventIsChdir e)) = true) :=
  ⟨rfl,
   (C7_workdir_resolution ⟨1, 1, 0⟩ ExecutorRef.managed ["cmd"] 3 []
       (some ⟨false, ["sub"]⟩) (some outDir0) false true none none [] cwd0
       (Outcome.finished 0) [] rfl).2.2.2.2.1,
   (C7_workdir_resolution ⟨1, 1, 0⟩ ExecutorRef.managed ["cmd"] 3 []
       (some ⟨false, ["sub"]⟩) (some outDir0) false true none none [] cwd0
       (Outcome.finished 0) [] rfl).2.2.2.2.2.2⟩

end MatEnsemble
